import Mathlib

/-!
ESP32 MQTT publish/subscribe demo (projects/04-mqtt/main/main.c).

A shallow embedding of the connectivity and messaging lifecycle of the
04-mqtt project: the Ethernet and IP event handlers, the MQTT event handler
with its command dispatch, the sensor publishing task and app_main.  The
simulated sensor of the low-power example is embedded in namespace LowPower.

Conventions.
* A C string or byte buffer is a list of characters.  A buffer handed over as
  pointer plus length (event->topic with event->topic_len, event->data with
  event->data_len) is the list of its bytes; the length is the list length.
  Reading a string literal past its last character yields the terminating NUL.
* The globals of main.c (the two event groups, mqtt_client, publish_count) are
  the fields of State.  The calls made on the MQTT client and the log lines
  are appended to traces kept in State.
* Library code (FreeRTOS event groups, esp-mqtt, libc) is modelled by its
  documented behaviour.
-/

namespace LowPower

/-! Simulated sensor of slides/examples/espidf_low_power/main/main.c. -/

/-- Arithmetic on int: the result is reduced to the 32-bit two's complement
range. -/
def wrapInt32 (x : Int) : Int := (x + 2 ^ 31) % 2 ^ 32 - 2 ^ 31

/-- Function read_sensor of the low-power example, for the value of the
global reading_count: (reading_count * 17 + 42) % 4096 in int arithmetic,
where % is the C remainder. -/
def read_sensor (reading_count : Int) : Int :=
  Int.tmod (wrapInt32 (wrapInt32 (reading_count * 17) + 42)) 4096

end LowPower

namespace Mqtt04

/-! ## libc -/

/-- The NUL character that terminates a C string. -/
def NUL : Char := Char.ofNat 0

/-- C strncmp: compares at most n characters, stops at the first difference or
at a NUL, and returns the difference of the two characters (0 when equal). -/
def strncmp : List Char → List Char → Nat → Int
  | _, _, 0 => 0
  | s1, s2, n + 1 =>
    let c1 := s1.headD NUL
    let c2 := s2.headD NUL
    if c1 ≠ c2 then (c1.toNat : Int) - (c2.toNat : Int)
    else if c1 = NUL then 0
    else strncmp s1.tail s2.tail n

/-- Conversion of an unsigned 32-bit value to int (two's complement). -/
def toInt32 (n : Nat) : Int :=
  if n % 2 ^ 32 < 2 ^ 31 then ((n % 2 ^ 32 : Nat) : Int) else ((n % 2 ^ 32 : Nat) : Int) - 2 ^ 32

/-- The text printf writes for a %d conversion. -/
def fmt_d (n : Int) : List Char :=
  if n < 0 then '-' :: Nat.toDigits 10 n.natAbs else Nat.toDigits 10 n.natAbs

/-- The text printf writes for a %.1f conversion of a non-negative value given
in tenths.  The simulated readings are small multiples of 0.1 computed in
single precision; their rounding error is far below 0.05, so the one-decimal
rendering is that of the exact multiple of 0.1. -/
def fmt_1f (tenths : Nat) : List Char :=
  Nat.toDigits 10 (tenths / 10) ++ '.' :: Nat.toDigits 10 (tenths % 10)

/-- C snprintf into a buffer of the given size: at most size - 1 characters of
the formatted text are stored (followed by NUL). -/
def snprintf (size : Nat) (formatted : List Char) : List Char :=
  formatted.take (size - 1)

/-! ## FreeRTOS event groups -/

/-- BIT0 of an event group. -/
def BIT0 : Nat := 1

/-- Readiness bit of eth_event_group. -/
def ETH_CONNECTED_BIT : Nat := BIT0

/-- Session bit of mqtt_event_group. -/
def MQTT_CONNECTED_BIT : Nat := BIT0

/-- FreeRTOS xEventGroupSetBits: the bits of the mask are set. -/
def xEventGroupSetBits (bits mask : Nat) : Nat := bits ||| mask

/-- FreeRTOS xEventGroupClearBits: the bits of the mask are cleared
(bits and-not mask). -/
def xEventGroupClearBits (bits mask : Nat) : Nat := bits ^^^ (bits &&& mask)

/-- The C test (bits & mask) != 0. -/
def bitSet (bits mask : Nat) : Bool := (bits &&& mask) != 0

/-! ## Configuration constants of main.c -/

/-- TOPIC_TEMPERATURE. -/
def TOPIC_TEMPERATURE : List Char := "esp32/sensors/temperature".toList

/-- TOPIC_HUMIDITY. -/
def TOPIC_HUMIDITY : List Char := "esp32/sensors/humidity".toList

/-- TOPIC_COMMANDS. -/
def TOPIC_COMMANDS : List Char := "esp32/commands".toList

/-- TOPIC_STATUS. -/
def TOPIC_STATUS : List Char := "esp32/status".toList

/-- CLIENT_ID. -/
def CLIENT_ID : List Char := "esp32-qemu-01".toList

/-- MQTT_BROKER_URI. -/
def MQTT_BROKER_URI : List Char := "mqtt://10.0.2.2:1883".toList

/-! ## Observable effects -/

/-- A call made on the esp-mqtt client.  The arguments are those of
esp_mqtt_client_publish (topic, data, len, qos, retain) and of
esp_mqtt_client_subscribe (topic, qos). -/
inductive ClientCall
  | publish (topic data : List Char) (len qos retain : Int)
  | subscribe (topic : List Char) (qos : Int)
  deriving DecidableEq, Repr

/-- Severity of a log line (ESP_LOGI, ESP_LOGW, ESP_LOGE) or plain printf. -/
inductive LogLevel
  | I | W | E | P
  deriving DecidableEq, Repr

/-- A log line: its level and the format string of the source (arguments are
not rendered). -/
structure LogEntry where
  level : LogLevel
  fmt : String
  deriving DecidableEq, Repr

/-- The last_will part of esp_mqtt_client_config_t. -/
structure last_will_t where
  topic : List Char
  msg : List Char
  msg_len : Int
  qos : Int
  retain : Int
  deriving DecidableEq, Repr

/-- The fields of esp_mqtt_client_config_t that init_mqtt fills in. -/
structure esp_mqtt_client_config_t where
  uri : List Char
  client_id : List Char
  last_will : last_will_t
  deriving DecidableEq, Repr

/-- The globals of main.c together with the traces of client calls and log
lines. -/
structure State where
  eth_event_group : Nat
  mqtt_event_group : Nat
  mqtt_client : Option esp_mqtt_client_config_t
  publish_count : Int
  calls : List ClientCall
  log : List LogEntry
  deriving DecidableEq, Repr

/-- Appends a log line. -/
def State.logf (s : State) (level : LogLevel) (fmt : String) : State :=
  { s with log := s.log ++ [⟨level, fmt⟩] }

/-- Appends a client call. -/
def State.call (s : State) (c : ClientCall) : State :=
  { s with calls := s.calls ++ [c] }

/-- The state at reset: static initialisers of main.c, empty traces. -/
def State.reset : State :=
  { eth_event_group := 0, mqtt_event_group := 0, mqtt_client := none,
    publish_count := 0, calls := [], log := [] }

/-! ## MQTT event handler -/

/-- Event ids of esp-mqtt that the handler names; any other id is OTHER. -/
inductive esp_mqtt_event_id_t
  | MQTT_EVENT_ERROR
  | MQTT_EVENT_CONNECTED
  | MQTT_EVENT_DISCONNECTED
  | MQTT_EVENT_SUBSCRIBED
  | MQTT_EVENT_PUBLISHED
  | MQTT_EVENT_DATA
  | OTHER (id : Int)
  deriving DecidableEq, Repr

/-- The fields of esp_mqtt_event_t the handler reads.  topic_len and data_len
are the lengths of topic and data. -/
structure esp_mqtt_event_t where
  topic : List Char
  data : List Char
  msg_id : Int
  tcp_transport_error : Bool
  deriving DecidableEq, Repr

/-- Field topic_len of the event. -/
def esp_mqtt_event_t.topic_len (e : esp_mqtt_event_t) : Nat := e.topic.length

/-- Field data_len of the event. -/
def esp_mqtt_event_t.data_len (e : esp_mqtt_event_t) : Nat := e.data.length

/-- The status reply of the get_status command as formatted by snprintf into
status_msg[128]. -/
def status_msg (uptime_s publish_count : Int) : List Char :=
  snprintf 128 ("\x7b\"uptime_s\":".toList ++ fmt_d uptime_s ++
    ",\"publish_count\":".toList ++ fmt_d publish_count ++ "\x7d".toList)

/-- Function mqtt_event_handler of main.c.  The tick rate configTICK_RATE_HZ
and the value of xTaskGetTickCount() at the time of the call are
parameters. -/
def mqtt_event_handler (configTICK_RATE_HZ ticks : Nat)
    (event_id : esp_mqtt_event_id_t) (event : esp_mqtt_event_t) (s : State) : State :=
  match event_id with
  | .MQTT_EVENT_CONNECTED =>
    let s := s.logf .I "MQTT connected to broker"
    let s := { s with mqtt_event_group := xEventGroupSetBits s.mqtt_event_group MQTT_CONNECTED_BIT }
    let s := s.call (.publish TOPIC_STATUS "online".toList 0 1 1)
    let s := s.call (.subscribe TOPIC_COMMANDS 1)
    let s := s.logf .I "Subscribed to %s, msg_id=%d"
    let s := s.call (.subscribe "esp32/sensors/#".toList 0)
    s.logf .I "Subscribed to esp32/sensors/# (wildcard)"
  | .MQTT_EVENT_DISCONNECTED =>
    let s := s.logf .W "MQTT disconnected"
    { s with mqtt_event_group := xEventGroupClearBits s.mqtt_event_group MQTT_CONNECTED_BIT }
  | .MQTT_EVENT_SUBSCRIBED => s.logf .I "MQTT subscribed, msg_id=%d"
  | .MQTT_EVENT_PUBLISHED => s.logf .I "MQTT message published, msg_id=%d"
  | .MQTT_EVENT_DATA =>
    let s := s.logf .I "========================================"
    let s := s.logf .I "MQTT message received!"
    let s := s.logf .I "  Topic:   %.*s"
    let s := s.logf .I "  Payload: %.*s"
    let s := s.logf .I "========================================"
    if event.topic_len > 0 ∧ strncmp event.topic TOPIC_COMMANDS event.topic_len = 0 then
      if strncmp event.data "toggle_led".toList event.data_len = 0 then
        s.logf .I "Command: toggle_led -> LED toggled (simulated)"
      else if strncmp event.data "get_status".toList event.data_len = 0 then
        let s := s.logf .I "Command: get_status -> publishing status"
        let status := status_msg (toInt32 (ticks % 2 ^ 32 / configTICK_RATE_HZ)) s.publish_count
        s.call (.publish TOPIC_STATUS status 0 0 0)
      else
        s.logf .W "Unknown command: %.*s"
    else s
  | .MQTT_EVENT_ERROR =>
    let s := s.logf .E "MQTT error occurred"
    if event.tcp_transport_error then s.logf .E "  Transport error: %s" else s
  | .OTHER _ => s.logf .I "MQTT event: %d"

/-- The log line of the simulated LED toggle. -/
def toggleEntry : LogEntry := ⟨.I, "Command: toggle_led -> LED toggled (simulated)"⟩

/-- The log line written for an unknown command. -/
def unknownEntry : LogEntry := ⟨.W, "Unknown command: %.*s"⟩

/-- An MQTT_EVENT_DATA event carrying the given topic and payload. -/
def dataEvent (topic data : String) : esp_mqtt_event_t :=
  { topic := topic.toList, data := data.toList, msg_id := 0, tcp_transport_error := false }

/-! ## Ethernet and IP event handlers -/

/-- Event ids of ETH_EVENT that the handler names; any other id is OTHER. -/
inductive eth_event_t
  | ETHERNET_EVENT_START
  | ETHERNET_EVENT_STOP
  | ETHERNET_EVENT_CONNECTED
  | ETHERNET_EVENT_DISCONNECTED
  | OTHER (id : Int)
  deriving DecidableEq, Repr

/-- Event ids of IP_EVENT: the one the handler tests for; any other id is
OTHER. -/
inductive ip_event_t
  | IP_EVENT_ETH_GOT_IP
  | OTHER (id : Int)
  deriving DecidableEq, Repr

/-- Function eth_event_handler of main.c. -/
def eth_event_handler (event_id : eth_event_t) (s : State) : State :=
  match event_id with
  | .ETHERNET_EVENT_CONNECTED => s.logf .I "Ethernet link up"
  | .ETHERNET_EVENT_DISCONNECTED =>
    let s := s.logf .W "Ethernet link down"
    { s with eth_event_group := xEventGroupClearBits s.eth_event_group ETH_CONNECTED_BIT }
  | .ETHERNET_EVENT_START => s.logf .I "Ethernet started"
  | .ETHERNET_EVENT_STOP => s.logf .I "Ethernet stopped"
  | .OTHER _ => s

/-- Function ip_event_handler of main.c. -/
def ip_event_handler (event_id : ip_event_t) (s : State) : State :=
  if event_id = .IP_EVENT_ETH_GOT_IP then
    let s := s.logf .I "Got IP address: %d.%d.%d.%d"
    let s := s.logf .I "Gateway:        %d.%d.%d.%d"
    let s := s.logf .I "Netmask:        %d.%d.%d.%d"
    { s with eth_event_group := xEventGroupSetBits s.eth_event_group ETH_CONNECTED_BIT }
  else s

/-- A link-layer or address-assignment event, as delivered to the two
handlers registered by init_ethernet. -/
inductive LinkEvent
  | eth (event_id : eth_event_t)
  | ip (event_id : ip_event_t)
  deriving DecidableEq, Repr

/-- Delivery of one link event to the handler registered for its base. -/
def linkHandler (s : State) : LinkEvent → State
  | .eth id => eth_event_handler id s
  | .ip id => ip_event_handler id s

/-- Delivery of a sequence of link events, in order. -/
def linkRun (s : State) (es : List LinkEvent) : State := es.foldl linkHandler s

/-! ## Simulated sensor readings and message formats -/

/-- Function get_simulated_temperature of main.c, for the value r returned by
esp_random().  The result 20.0f + (float)(r % 100) / 10.0f is given in tenths
of a degree. -/
def get_simulated_temperature (r : Nat) : Nat := 200 + r % 100

/-- Function get_simulated_humidity of main.c, for the value r returned by
esp_random().  The result 40.0f + (float)(r % 300) / 10.0f is given in tenths
of a percent. -/
def get_simulated_humidity (r : Nat) : Nat := 400 + r % 300

/-- The temperature record as formatted by snprintf into temp_msg[128]. -/
def temp_msg (temp : Nat) (reading : Int) : List Char :=
  snprintf 128 ("\x7b\"device\":\"".toList ++ CLIENT_ID ++ "\",\"value\":".toList ++ fmt_1f temp ++
    ",\"unit\":\"C\",\"reading\":".toList ++ fmt_d reading ++ "\x7d".toList)

/-- The humidity record as formatted by snprintf into hum_msg[128]. -/
def hum_msg (humidity : Nat) (reading : Int) : List Char :=
  snprintf 128 ("\x7b\"device\":\"".toList ++ CLIENT_ID ++ "\",\"value\":".toList ++
    fmt_1f humidity ++ ",\"unit\":\"%\",\"reading\":".toList ++ fmt_d reading ++ "\x7d".toList)

/-- The summary as formatted by snprintf into final_msg[128]. -/
def final_msg (publish_count : Int) : List Char :=
  snprintf 128 ("\x7b\"status\":\"complete\",\"total_published\":".toList ++
    fmt_d publish_count ++ "\x7d".toList)

/-! ## Sensor publishing task -/

/-- Control points of sensor_publish_task.  The task is cut at every statement
that reads or writes shared state, so that handlers may run in between. -/
inductive TaskPc
  | wait_connected
  | loop_head (i : Nat)
  | wait_reconnect (i : Nat)
  | publish_temp (i : Nat)
  | publish_hum (i : Nat) (humidity : Nat)
  | count (i : Nat)
  | final
  | deleted
  deriving DecidableEq, Repr

/-- What the environment supplies to a step of the task: whether a bounded
wait has run out, and the next two values of esp_random(). -/
structure TaskInput where
  timeout : Bool
  r_temp : Nat
  r_hum : Nat
  deriving DecidableEq, Repr

/-- Function sensor_publish_task of main.c, one step at a time.  The result is
none when the task cannot move: it is blocked in a wait, or deleted. -/
def sensor_publish_task (inp : TaskInput) : TaskPc → State → Option (TaskPc × State)
  | .wait_connected, s =>
    if bitSet s.mqtt_event_group MQTT_CONNECTED_BIT then
      let s := s.logf .I "========================================"
      let s := s.logf .I "Starting sensor publish loop"
      let s := s.logf .I "  Publishing to: %s, %s"
      let s := s.logf .I "  Interval: 5 seconds"
      let s := s.logf .I "  Total readings: 10"
      let s := s.logf .I "========================================"
      some (.loop_head 0, s)
    else none
  | .loop_head i, s =>
    if i < 10 then
      let bits := s.mqtt_event_group
      if !bitSet bits MQTT_CONNECTED_BIT then
        some (.wait_reconnect i, s.logf .W "MQTT disconnected, waiting to reconnect...")
      else some (.publish_temp i, s)
    else some (.final, s)
  | .wait_reconnect i, s =>
    if bitSet s.mqtt_event_group MQTT_CONNECTED_BIT || inp.timeout then
      some (.publish_temp i, s)
    else none
  | .publish_temp i, s =>
    let temp := get_simulated_temperature inp.r_temp
    let humidity := get_simulated_humidity inp.r_hum
    let s := s.call (.publish TOPIC_TEMPERATURE (temp_msg temp ((i : Int) + 1)) 0 1 0)
    let s := s.logf .I "[%d/10] Published temperature=%.1f C (msg_id=%d)"
    some (.publish_hum i humidity, s)
  | .publish_hum i humidity, s =>
    let s := s.call (.publish TOPIC_HUMIDITY (hum_msg humidity ((i : Int) + 1)) 0 1 0)
    let s := s.logf .I "[%d/10] Published humidity=%.1f %% (msg_id=%d)"
    some (.count i, s)
  | .count i, s =>
    let s := { s with publish_count := s.publish_count + 2 }
    some (.loop_head (i + 1), s)
  | .final, s =>
    let s := s.call (.publish TOPIC_STATUS (final_msg s.publish_count) 0 1 0)
    let s := s.logf .P "\n"
    let s := s.logf .P "==========================================\n"
    let s := s.logf .P "  MQTT Demo complete!\n"
    let s := s.logf .P "  Published %d messages total\n"
    let s := s.logf .P "  Press Ctrl+A then X to exit QEMU\n"
    let s := s.logf .P "==========================================\n"
    some (.deleted, s)
  | .deleted, _ => none

/-- The task run on its own: the inputs are consumed one per step; the result
is none if the task blocks or ends before the inputs are used up. -/
def taskRun : List TaskInput → TaskPc → State → Option (TaskPc × State)
  | [], pc, s => some (pc, s)
  | inp :: inps, pc, s =>
    match sensor_publish_task inp pc s with
    | none => none
    | some (pc', s') => taskRun inps pc' s'

/-! ## app_main and the whole system -/

/-- Control points of app_main: before init_ethernet, in the wait for the
address, in the 2 s delay before init_mqtt, in the wait for the session, and
after its return. -/
inductive MainPc
  | start
  | wait_eth
  | delay
  | wait_mqtt
  | returned
  deriving DecidableEq, Repr

/-- The system: the globals and traces, whether init_ethernet has registered
the link handlers, where app_main stands, and the publishing task once it has
been created. -/
structure Sys where
  st : State
  eth_started : Bool
  main : MainPc
  task : Option TaskPc
  deriving DecidableEq, Repr

/-- The system at reset. -/
def Sys.reset : Sys :=
  { st := State.reset, eth_started := false, main := .start, task := none }

/-- Function init_mqtt of main.c: creates the event group, builds the client
configuration with its last will, and starts the client. -/
def init_mqtt (s : State) : State :=
  let mqtt_cfg : esp_mqtt_client_config_t :=
    { uri := MQTT_BROKER_URI, client_id := CLIENT_ID,
      last_will := { topic := TOPIC_STATUS, msg := "offline".toList, msg_len := 7,
                     qos := 1, retain := 1 } }
  let s := { s with mqtt_event_group := 0, mqtt_client := some mqtt_cfg }
  s.logf .I "MQTT client started, connecting to %s ..."

/-- Function app_main of main.c, one step at a time.  The flag says whether
the bounded wait the function is blocked in has run out.  The driver calls of
init_ethernet are taken to succeed. -/
def app_main (timeout : Bool) (y : Sys) : Option Sys :=
  match y.main with
  | .start =>
    let s := y.st.logf .P "\n"
    let s := s.logf .P "==========================================\n"
    let s := s.logf .P "  ESP32 MQTT Pub/Sub Demo (QEMU)\n"
    let s := s.logf .P "  IoT Course - Spring 2026\n"
    let s := s.logf .P "==========================================\n\n"
    let s := { s with eth_event_group := 0 }
    let s := s.logf .I "Waiting for IP address from DHCP..."
    some { y with st := s, eth_started := true, main := .wait_eth }
  | .wait_eth =>
    if bitSet y.st.eth_event_group ETH_CONNECTED_BIT || timeout then
      let bits := y.st.eth_event_group
      if !bitSet bits ETH_CONNECTED_BIT then
        let s := y.st.logf .E "Failed to get IP address within 30 seconds!"
        let s := s.logf .E "Make sure QEMU was started with: -nic user,model=open_eth"
        some { y with st := s, main := .returned }
      else some { y with main := .delay }
    else none
  | .delay =>
    let s := y.st.logf .I "========================================"
    let s := s.logf .I "Connecting to MQTT broker..."
    let s := s.logf .I "  Broker:    %s"
    let s := s.logf .I "  Client ID: %s"
    let s := s.logf .I "  LWT topic: %s"
    let s := s.logf .I "========================================"
    some { y with st := init_mqtt s, main := .wait_mqtt }
  | .wait_mqtt =>
    if bitSet y.st.mqtt_event_group MQTT_CONNECTED_BIT || timeout then
      let bits := y.st.mqtt_event_group
      if !bitSet bits MQTT_CONNECTED_BIT then
        let s := y.st.logf .E "Failed to connect to MQTT broker within 30 seconds!"
        let s := s.logf .W "Check that Mosquitto is running: docker compose up -d mqtt-broker"
        some { y with st := s, main := .returned }
      else
        let s := y.st.logf .I "========================================"
        let s := s.logf .I "MQTT demo running."
        let s := s.logf .I "To send a command from your host:"
        let s := s.logf .I "  mosquitto_pub -h localhost -t esp32/commands -m toggle_led"
        let s := s.logf .I "  mosquitto_pub -h localhost -t esp32/commands -m get_status"
        let s := s.logf .I "========================================"
        some { y with st := s, main := .returned, task := some .wait_connected }
    else none
  | .returned => none

/-- One move of the system: delivery of a link event or of an MQTT event to
its handler, a step of app_main, or a step of the publishing task. -/
inductive Label
  | eth (event_id : eth_event_t)
  | ip (event_id : ip_event_t)
  | mqtt (ticks : Nat) (event_id : esp_mqtt_event_id_t) (event : esp_mqtt_event_t)
  | main (timeout : Bool)
  | task (inp : TaskInput)
  deriving DecidableEq, Repr

/-- The move of the system under a label; none when the move is not possible:
a handler that is not registered yet, or a blocked or finished thread. -/
def step (configTICK_RATE_HZ : Nat) (y : Sys) : Label → Option Sys
  | .eth id => if y.eth_started then some { y with st := eth_event_handler id y.st } else none
  | .ip id => if y.eth_started then some { y with st := ip_event_handler id y.st } else none
  | .mqtt ticks id ev =>
    if y.st.mqtt_client.isSome then
      some { y with st := mqtt_event_handler configTICK_RATE_HZ ticks id ev y.st }
    else none
  | .main timeout => app_main timeout y
  | .task inp =>
    match y.task with
    | none => none
    | some pc =>
      match sensor_publish_task inp pc y.st with
      | none => none
      | some (pc', s') => some { y with st := s', task := some pc' }

/-- The moves of the system under a sequence of labels. -/
def run (configTICK_RATE_HZ : Nat) : Sys → List Label → Option Sys
  | y, [] => some y
  | y, l :: ls =>
    match step configTICK_RATE_HZ y l with
    | none => none
    | some y' => run configTICK_RATE_HZ y' ls

/-! ## Definitions used in the statements -/

/-- The two client calls of one publish cycle, for the pair of payloads of the
temperature and the humidity record. -/
def cycleCalls (p : List Char × List Char) : List ClientCall :=
  [.publish TOPIC_TEMPERATURE p.1 0 1 0, .publish TOPIC_HUMIDITY p.2 0 1 0]

/-- What holds of the system after the moves ls from reset: without a started
client no call has been issued, the task does not exist and app_main is not in
its wait for the session; the client is started only once app_main is past its
wait for the address; and app_main is past that wait, or the readiness bit is
set, only if an address assignment is among the moves. -/
def Inv (ls : List Label) (y : Sys) : Prop :=
  (y.st.mqtt_client = none → y.st.calls = [] ∧ y.task = none ∧ y.main ≠ .wait_mqtt) ∧
  (y.st.mqtt_client ≠ none → y.main = .wait_mqtt ∨ y.main = .returned) ∧
  (y.main = .delay ∨ y.st.mqtt_client ≠ none ∨
      bitSet y.st.eth_event_group ETH_CONNECTED_BIT = true →
    Label.ip .IP_EVENT_ETH_GOT_IP ∈ ls)

/-- A run in which the address is assigned, app_main starts the client, and
the session is established. -/
def sessionUpRun : List Label :=
  [.main false, .ip .IP_EVENT_ETH_GOT_IP, .main false, .main false,
   .mqtt 0 .MQTT_EVENT_CONNECTED (dataEvent "" "")]

/-- One delivery to mqtt_event_handler: the tick count at the time of the
call, the event id and the event. -/
structure MqttDelivery where
  ticks : Nat
  event_id : esp_mqtt_event_id_t
  event : esp_mqtt_event_t
  deriving DecidableEq, Repr

/-- Delivery of a sequence of MQTT events to mqtt_event_handler, in order. -/
def mqttRun (configTICK_RATE_HZ : Nat) (s : State) (es : List MqttDelivery) : State :=
  es.foldl (fun s e => mqtt_event_handler configTICK_RATE_HZ e.ticks e.event_id e.event s) s

/-- Whether a client call is a subscribe. -/
def isSubscribe : ClientCall → Bool
  | .subscribe _ _ => true
  | .publish _ _ _ _ _ => false

/-- Whether a client call is a subscribe for the given topic filter. -/
def isSubscribeTo (topicFilter : List Char) : ClientCall → Bool
  | .subscribe t _ => t == topicFilter
  | .publish _ _ _ _ _ => false

/-- Whether a delivery is an MQTT_EVENT_CONNECTED. -/
def isConnected (e : MqttDelivery) : Bool := e.event_id == .MQTT_EVENT_CONNECTED

/-- Whether a delivery is an MQTT_EVENT_CONNECTED or an
MQTT_EVENT_DISCONNECTED. -/
def isSessionEvent (e : MqttDelivery) : Bool :=
  e.event_id == .MQTT_EVENT_CONNECTED || e.event_id == .MQTT_EVENT_DISCONNECTED

/-- The three client calls made on MQTT_EVENT_CONNECTED. -/
def connectCalls : List ClientCall :=
  [.publish TOPIC_STATUS "online".toList 0 1 1, .subscribe TOPIC_COMMANDS 1,
   .subscribe "esp32/sensors/#".toList 0]

/-- The client calls that mqtt_event_handler makes: the online status, the
two subscribes, and the status reply. -/
def HandlerCall (c : ClientCall) : Prop :=
  c = .publish TOPIC_STATUS "online".toList 0 1 1 ∨ c = .subscribe TOPIC_COMMANDS 1 ∨
  c = .subscribe "esp32/sensors/#".toList 0 ∨
  ∃ u n, c = .publish TOPIC_STATUS (status_msg u n) 0 0 0

/-- The client calls that sensor_publish_task makes: a temperature record, a
humidity record, or the summary. -/
def TaskCall (c : ClientCall) : Prop :=
  (∃ v k, c = .publish TOPIC_TEMPERATURE (temp_msg v k) 0 1 0) ∨
  (∃ v k, c = .publish TOPIC_HUMIDITY (hum_msg v k) 0 1 0) ∨
  ∃ n, c = .publish TOPIC_STATUS (final_msg n) 0 1 0

/-- Recognises the calls of the task in the trace by their arguments: a
publish to one of the two sensor topics, or a publish to the status topic
with QoS 1 and retain 0. -/
def taskCall : ClientCall → Bool
  | .publish t _ _ q r =>
    t == TOPIC_TEMPERATURE || t == TOPIC_HUMIDITY || (t == TOPIC_STATUS && q == 1 && r == 0)
  | .subscribe _ _ => false

/-- The values a control point of the task can hold: the loop index is at most
10 at the loop head and below 10 inside the loop body, and a humidity reading
carried between the two publishes is a value of get_simulated_humidity. -/
def pcOk : TaskPc → Prop
  | .wait_connected => True
  | .loop_head i => i ≤ 10
  | .wait_reconnect i => i < 10
  | .publish_temp i => i < 10
  | .publish_hum i h => i < 10 ∧ 400 ≤ h ∧ h < 700
  | .count i => i < 10
  | .final => True
  | .deleted => True

/-- What the task publishes: the temperature or humidity record with a
reading number, or the summary. -/
inductive Kind
  | temperature (reading : Int)
  | humidity (reading : Int)
  | summary
  deriving DecidableEq, Repr

/-- The publishes of a complete run of the task in call order: temperature and
humidity for readings 1 to 10, then the summary. -/
def schedule : List Kind :=
  ((List.range 10).map (fun k => [Kind.temperature ((k : Int) + 1),
    Kind.humidity ((k : Int) + 1)])).flatten ++ [Kind.summary]

/-- A client call is the publish of the given kind, for some sensor value or
some count. -/
def renders : Kind → ClientCall → Prop
  | .temperature k, c => ∃ v, c = .publish TOPIC_TEMPERATURE (temp_msg v k) 0 1 0
  | .humidity k, c => ∃ v, c = .publish TOPIC_HUMIDITY (hum_msg v k) 0 1 0
  | .summary, c => ∃ n, c = .publish TOPIC_STATUS (final_msg n) 0 1 0

/-- How many publishes the task has made when it stands at a control point. -/
def progress : Option TaskPc → Nat
  | none => 0
  | some .wait_connected => 0
  | some (.loop_head i) => 2 * i
  | some (.wait_reconnect i) => 2 * i
  | some (.publish_temp i) => 2 * i
  | some (.publish_hum i _) => 2 * i + 1
  | some (.count i) => 2 * i + 2
  | some .final => 20
  | some .deleted => 21

/-- The client configuration that init_mqtt builds. -/
def mqtt_cfg : esp_mqtt_client_config_t :=
  { uri := MQTT_BROKER_URI, client_id := CLIENT_ID,
    last_will := { topic := TOPIC_STATUS, msg := "offline".toList, msg_len := 7,
                   qos := 1, retain := 1 } }

/-- A run in which no address is assigned: app_main starts Ethernet, the link
comes up, and nothing else happens. -/
def noAddressRun : List Label :=
  [.main false, .eth .ETHERNET_EVENT_START, .eth .ETHERNET_EVENT_CONNECTED]

/-- A run in which the address is assigned and the client is started, but the
session is not established. -/
def noSessionRun : List Label :=
  [.main false, .ip .IP_EVENT_ETH_GOT_IP, .main false, .main false]

/-- A run in which the session drops during the first cycle of the task and
is re-established before the second: the session comes up, the task is
created and publishes the first temperature record, the broker disconnects,
the task finishes the cycle and waits, the broker reconnects, and the task
publishes the temperature record of the second cycle. -/
def reconnectRun : List Label :=
  sessionUpRun ++
  [.main false, .task ⟨false, 0, 0⟩, .task ⟨false, 0, 0⟩, .task ⟨false, 15, 123⟩,
   .mqtt 0 .MQTT_EVENT_DISCONNECTED (dataEvent "" ""), .task ⟨false, 0, 0⟩,
   .task ⟨false, 0, 0⟩, .task ⟨false, 0, 0⟩,
   .mqtt 0 .MQTT_EVENT_CONNECTED (dataEvent "" ""), .task ⟨false, 0, 0⟩,
   .task ⟨false, 42, 77⟩]

/-- The log lines written on every MQTT_EVENT_DATA before the command
dispatch. -/
def dataBanner : List LogEntry :=
  [⟨.I, "========================================"⟩, ⟨.I, "MQTT message received!"⟩,
   ⟨.I, "  Topic:   %.*s"⟩, ⟨.I, "  Payload: %.*s"⟩,
   ⟨.I, "========================================"⟩]

/-- The log line written when the get_status command is recognised. -/
def statusEntry : LogEntry := ⟨.I, "Command: get_status -> publishing status"⟩

/-- How many cycles the task has completed when it stands at a control point;
a cycle is complete once publish_count has been increased for it. -/
def cyclesDone : Option TaskPc → Nat
  | none => 0
  | some .wait_connected => 0
  | some (.loop_head i) => i
  | some (.wait_reconnect i) => i
  | some (.publish_temp i) => i
  | some (.publish_hum i _) => i
  | some (.count i) => i
  | some .final => 10
  | some .deleted => 10

/-- The client calls that occur in a run, with what they report of
publish_count: the online status, the two subscribes, a status reply whose
count is 2 k for some k up to 10, a telemetry record, or the summary with
total 20. -/
def CountedCall (c : ClientCall) : Prop :=
  c = .publish TOPIC_STATUS "online".toList 0 1 1 ∨ c = .subscribe TOPIC_COMMANDS 1 ∨
  c = .subscribe "esp32/sensors/#".toList 0 ∨
  (∃ (u : Int) (k : Nat), k ≤ 10 ∧
    c = .publish TOPIC_STATUS (status_msg u (2 * (k : Int))) 0 0 0) ∨
  (∃ d, c = .publish TOPIC_TEMPERATURE d 0 1 0) ∨
  (∃ d, c = .publish TOPIC_HUMIDITY d 0 1 0) ∨
  c = .publish TOPIC_STATUS
    "\x7b\"status\":\"complete\",\"total_published\":20\x7d".toList 0 1 0

/-! ## Auxiliary facts -/

/-- A number below 10^10 has at most 10 decimal digits. -/
theorem toDigits_length_le (m : Nat) (h : m < 10 ^ 10) : (Nat.toDigits 10 m).length ≤ 10 :=
  Nat.toDigitsCore_length 10 (by decide) (m + 1) m 10 h (by decide)

/-- The %d rendering of an int has at most 11 characters. -/
theorem fmt_d_length_le (n : Int) (hlo : -2 ^ 31 ≤ n) (hhi : n < 2 ^ 31) :
    (fmt_d n).length ≤ 11 := by
  have hm : n.natAbs < 10 ^ 10 := by omega
  have := toDigits_length_le n.natAbs hm
  unfold fmt_d
  split <;> simp <;> omega

/-- Values below 2^31 are unchanged by the conversion to int. -/
theorem toInt32_of_lt (n : Nat) (h : n < 2 ^ 31) : toInt32 n = (n : Int) := by
  have h1 : n % 2 ^ 32 = n := Nat.mod_eq_of_lt (by omega)
  unfold toInt32
  rw [h1, if_pos h]

/-- Testing BIT0 is testing the lowest bit. -/
theorem bitSet_one (b : Nat) : bitSet b 1 = b.testBit 0 := by
  unfold bitSet
  rw [Nat.and_one_is_mod, Nat.testBit_zero]
  rcases Nat.mod_two_eq_zero_or_one b with h | h <;> simp [h]

/-- After xEventGroupSetBits with BIT0 the bit tests as set. -/
theorem bitSet_set (b : Nat) : bitSet (xEventGroupSetBits b BIT0) BIT0 = true := by
  rw [BIT0, bitSet_one, xEventGroupSetBits, Nat.testBit_or]; simp

/-- After xEventGroupClearBits with BIT0 the bit tests as clear. -/
theorem bitSet_clear (b : Nat) : bitSet (xEventGroupClearBits b BIT0) BIT0 = false := by
  rw [BIT0, bitSet_one, xEventGroupClearBits, Nat.testBit_xor, Nat.testBit_and]; simp

/-- The status reply fits its 128-byte buffer, so snprintf stores it whole. -/
theorem status_msg_eq (u c : Int) (hu : -2 ^ 31 ≤ u ∧ u < 2 ^ 31) (hc : -2 ^ 31 ≤ c ∧ c < 2 ^ 31) :
    status_msg u c = "\x7b\"uptime_s\":".toList ++ fmt_d u ++ ",\"publish_count\":".toList ++
      fmt_d c ++ "\x7d".toList := by
  have h1 := fmt_d_length_le u hu.1 hu.2
  have h2 := fmt_d_length_le c hc.1 hc.2
  unfold status_msg snprintf
  apply List.take_of_length_le
  simp
  omega

/-! ## Command dispatch (claims C1 to C4) -/

/-- C1 (defect of the code): the payload comparison is bounded by data_len
only, so on the command topic the empty payload is dispatched as toggle_led
and the proper prefix get is dispatched as get_status with a published reply,
although neither equals a known verb. -/
theorem C1_payload_prefix_dispatched :
    "".toList ≠ "toggle_led".toList ∧
    toggleEntry ∈ (mqtt_event_handler 100 0 .MQTT_EVENT_DATA
      (dataEvent "esp32/commands" "") State.reset).log ∧
    "get".toList ≠ "get_status".toList ∧
    (mqtt_event_handler 100 0 .MQTT_EVENT_DATA
      (dataEvent "esp32/commands" "get") State.reset).calls =
      [.publish "esp32/status".toList "\x7b\"uptime_s\":0,\"publish_count\":0\x7d".toList 0 0 0] := by
  decide

/-- C3: on topic esp32/commands with payload get_status the handler issues
exactly one client call, a publish to esp32/status with QoS 0 and retain 0
whose payload is the record of uptime t / configTICK_RATE_HZ and of the
current publish_count; publish_count and the session bits are unchanged.  The
tick count is a 32-bit value whose quotient fits int, publish_count is an
int. -/
theorem C3_get_status_reply (hz t : Nat) (s : State) (ev : esp_mqtt_event_t)
    (_hz_pos : 0 < hz) (ht : t < 2 ^ 32) (hU : t / hz < 2 ^ 31)
    (hc : -2 ^ 31 ≤ s.publish_count ∧ s.publish_count < 2 ^ 31)
    (htopic : ev.topic = "esp32/commands".toList) (hdata : ev.data = "get_status".toList) :
    (mqtt_event_handler hz t .MQTT_EVENT_DATA ev s).calls = s.calls ++
      [.publish "esp32/status".toList
        ("\x7b\"uptime_s\":".toList ++ fmt_d ((t / hz : Nat) : Int) ++
          ",\"publish_count\":".toList ++ fmt_d s.publish_count ++ "\x7d".toList) 0 0 0] ∧
    (mqtt_event_handler hz t .MQTT_EVENT_DATA ev s).publish_count = s.publish_count ∧
    (mqtt_event_handler hz t .MQTT_EVENT_DATA ev s).mqtt_event_group = s.mqtt_event_group := by
  have h1 : strncmp ev.topic TOPIC_COMMANDS ev.topic_len = 0 := by
    rw [esp_mqtt_event_t.topic_len, htopic]; decide
  have h2 : strncmp ev.data "toggle_led".toList ev.data_len ≠ 0 := by
    rw [esp_mqtt_event_t.data_len, hdata]; decide
  have h3 : strncmp ev.data "get_status".toList ev.data_len = 0 := by
    rw [esp_mqtt_event_t.data_len, hdata]; decide
  have h4 : ev.topic_len > 0 := by
    rw [esp_mqtt_event_t.topic_len, htopic]; decide
  have h5 : toInt32 (t % 2 ^ 32 / hz) = ((t / hz : Nat) : Int) := by
    rw [Nat.mod_eq_of_lt ht]; exact toInt32_of_lt _ hU
  have h6 := status_msg_eq ((t / hz : Nat) : Int) s.publish_count
    ⟨by have := Int.natCast_nonneg (t / hz); omega, by exact_mod_cast hU⟩ hc
  simp only [mqtt_event_handler]
  rw [if_pos ⟨h4, h1⟩, if_neg h2, if_pos h3]
  simp only [State.logf, State.call, h5, h6, TOPIC_STATUS, and_self]

/-- C3 at a concrete input: 12345 ticks at 100 Hz, publish_count 0. -/
theorem C3_get_status_reply_witness :
    (mqtt_event_handler 100 12345 .MQTT_EVENT_DATA
      (dataEvent "esp32/commands" "get_status") State.reset).calls = [] ++
      [.publish "esp32/status".toList
        ("\x7b\"uptime_s\":".toList ++ fmt_d ((12345 / 100 : Nat) : Int) ++
          ",\"publish_count\":".toList ++ fmt_d State.reset.publish_count ++ "\x7d".toList) 0 0 0] ∧
    (mqtt_event_handler 100 12345 .MQTT_EVENT_DATA
      (dataEvent "esp32/commands" "get_status") State.reset).publish_count = 0 ∧
    (mqtt_event_handler 100 12345 .MQTT_EVENT_DATA
      (dataEvent "esp32/commands" "get_status") State.reset).mqtt_event_group = 0 :=
  C3_get_status_reply 100 12345 State.reset (dataEvent "esp32/commands" "get_status")
    (by decide) (by decide) (by decide) (by decide) rfl rfl

/-- C4 (defect of the code): payloads that are not known verbs but are proper
prefixes of one are not treated as unknown commands.  On the command topic the
payload toggle takes the toggle action and the payload g publishes a status
reply; neither writes the unknown-command log line. -/
theorem C4_unknown_payload_acted_on :
    "toggle".toList ≠ "toggle_led".toList ∧ "toggle".toList ≠ "get_status".toList ∧
    toggleEntry ∈ (mqtt_event_handler 100 0 .MQTT_EVENT_DATA
      (dataEvent "esp32/commands" "toggle") State.reset).log ∧
    unknownEntry ∉ (mqtt_event_handler 100 0 .MQTT_EVENT_DATA
      (dataEvent "esp32/commands" "toggle") State.reset).log ∧
    "g".toList ≠ "toggle_led".toList ∧ "g".toList ≠ "get_status".toList ∧
    (mqtt_event_handler 100 0 .MQTT_EVENT_DATA
      (dataEvent "esp32/commands" "g") State.reset).calls =
      [.publish "esp32/status".toList "\x7b\"uptime_s\":0,\"publish_count\":0\x7d".toList 0 0 0] ∧
    unknownEntry ∉ (mqtt_event_handler 100 0 .MQTT_EVENT_DATA
      (dataEvent "esp32/commands" "g") State.reset).log := by
  decide

/-! ## Session establishment (claim C5) -/

/-- C5: from every state, handling MQTT_EVENT_CONNECTED sets the connected bit
and issues exactly three client calls in this order: publish of online to
esp32/status with QoS 1 retained, subscribe to esp32/commands with QoS 1,
subscribe to esp32/sensors/# with QoS 0; the two filters differ and so do
their QoS values. -/
theorem C5_connected_session_setup (hz t : Nat) (ev : esp_mqtt_event_t) (s : State) :
    bitSet (mqtt_event_handler hz t .MQTT_EVENT_CONNECTED ev s).mqtt_event_group
      MQTT_CONNECTED_BIT = true ∧
    (mqtt_event_handler hz t .MQTT_EVENT_CONNECTED ev s).calls = s.calls ++
      [.publish "esp32/status".toList "online".toList 0 1 1,
       .subscribe "esp32/commands".toList 1,
       .subscribe "esp32/sensors/#".toList 0] ∧
    "esp32/commands".toList ≠ "esp32/sensors/#".toList ∧ (1 : Int) ≠ 0 := by
  refine ⟨?_, ?_, by decide, by decide⟩
  · simp only [mqtt_event_handler, State.logf, State.call, MQTT_CONNECTED_BIT]
    exact bitSet_set _
  · simp [mqtt_event_handler, State.logf, State.call, TOPIC_STATUS, TOPIC_COMMANDS]

/-! ## The summary message (claim C6) -/

/-- C6 (the claim as stated fails): run from the loop head after the tenth
cycle with publish_count 20, the task does not issue a summary publish with
the retain flag set. -/
theorem C6_summary_retained_fails :
    ¬ ∃ (data : List Char) (len : Int) (pc : TaskPc) (s' : State),
      taskRun [⟨false, 0, 0⟩, ⟨false, 0, 0⟩] (.loop_head 10)
        { State.reset with mqtt_event_group := 1, publish_count := 20 } = some (pc, s') ∧
      s'.calls = [.publish "esp32/status".toList data len 1 1] := by
  rintro ⟨data, len, pc, s', hrun, hcalls⟩
  have hc : (Option.map (fun r => r.2.calls) (taskRun [⟨false, 0, 0⟩, ⟨false, 0, 0⟩] (.loop_head 10)
      { State.reset with mqtt_event_group := 1, publish_count := 20 })) =
      some [.publish "esp32/status".toList
        "\x7b\"status\":\"complete\",\"total_published\":20\x7d".toList 0 1 0] := by
    decide
  rw [hrun] at hc
  simp only [Option.map_some', Option.some.injEq] at hc
  rw [hcalls] at hc
  simp at hc

/-- From the loop head with i = 10 the task publishes the summary and ends. -/
theorem summary_tail (inp1 inp2 inp3 : TaskInput) (s : State) :
    ∃ s', taskRun [inp1, inp2] (.loop_head 10) s = some (.deleted, s') ∧
      s'.calls = s.calls ++ [.publish TOPIC_STATUS (final_msg s.publish_count) 0 1 0] ∧
      sensor_publish_task inp3 .deleted s' = none := by
  simp [taskRun, sensor_publish_task, State.call, State.logf]

/-- C6 (amended): after the tenth cycle, from every state, the task leaves the
loop and issues exactly one more client call, the summary published to
esp32/status with QoS 1 and retain 0; it is then deleted and issues nothing
further. -/
theorem C6_summary_once_qos1_not_retained (inp1 inp2 inp3 : TaskInput) (s : State) :
    ∃ s', taskRun [inp1, inp2] (.loop_head 10) s = some (.deleted, s') ∧
      s'.calls = s.calls ++
        [.publish "esp32/status".toList (final_msg s.publish_count) 0 1 0] ∧
      sensor_publish_task inp3 .deleted s' = none :=
  summary_tail inp1 inp2 inp3 s

/-! ## Publishing into a disconnected session (claim C7) -/

/-- C7 (defect of the code): the result of the bounded wait for reconnection
is not examined.  With the connected bit clear at the start of the first cycle
and still clear when the wait runs out, the task publishes both telemetry
messages of the cycle, counts them, and goes on to the next cycle. -/
theorem C7_publishes_after_wait_timeout :
    bitSet State.reset.mqtt_event_group MQTT_CONNECTED_BIT = false ∧
    taskRun [⟨false, 0, 0⟩] (.loop_head 0) State.reset =
      some (.wait_reconnect 0,
        State.reset.logf .W "MQTT disconnected, waiting to reconnect...") ∧
    Option.map (fun r => (r.1, r.2.calls, r.2.publish_count,
        bitSet r.2.mqtt_event_group MQTT_CONNECTED_BIT))
      (taskRun [⟨false, 0, 0⟩, ⟨true, 0, 0⟩, ⟨false, 15, 123⟩, ⟨false, 0, 0⟩, ⟨false, 0, 0⟩]
        (.loop_head 0) State.reset) =
      some (.loop_head 1,
        [.publish "esp32/sensors/temperature".toList
           "\x7b\"device\":\"esp32-qemu-01\",\"value\":21.5,\"unit\":\"C\",\"reading\":1\x7d".toList
           0 1 0,
         .publish "esp32/sensors/humidity".toList
           "\x7b\"device\":\"esp32-qemu-01\",\"value\":52.3,\"unit\":\"%\",\"reading\":1\x7d".toList
           0 1 0],
        2, false) := by
  decide

/-! ## A complete run of the task (claim C9) -/

/-- Running the task on a concatenation of inputs is running it on the parts. -/
theorem taskRun_append (xs ys : List TaskInput) : ∀ (pc : TaskPc) (s : State),
    taskRun (xs ++ ys) pc s = (taskRun xs pc s).bind (fun r => taskRun ys r.1 r.2) := by
  induction xs with
  | nil => intro pc s; rfl
  | cons x xs ih =>
    intro pc s
    simp only [List.cons_append, taskRun]
    cases h : sensor_publish_task x pc s with
    | none => rfl
    | some r => exact ih r.1 r.2

/-- One publish cycle of the task in a connected session. -/
theorem task_cycle (a b c d : TaskInput) (i : Nat) (s : State) (hi : i < 10)
    (hb : bitSet s.mqtt_event_group MQTT_CONNECTED_BIT = true) :
    ∃ s', taskRun [a, b, c, d] (.loop_head i) s = some (.loop_head (i + 1), s') ∧
      s'.calls = s.calls ++ cycleCalls
        (temp_msg (get_simulated_temperature b.r_temp) ((i : Int) + 1),
         hum_msg (get_simulated_humidity b.r_hum) ((i : Int) + 1)) ∧
      s'.publish_count = s.publish_count + 2 ∧
      s'.mqtt_event_group = s.mqtt_event_group := by
  simp [taskRun, sensor_publish_task, hi, hb, State.call, State.logf, cycleCalls]

/-- Any number k of consecutive publish cycles in a connected session. -/
theorem task_cycles (k : Nat) : ∀ (inps : List TaskInput) (i : Nat) (s : State),
    inps.length = 4 * k → i + k ≤ 10 →
    bitSet s.mqtt_event_group MQTT_CONNECTED_BIT = true →
    ∃ (s' : State) (payloads : List (List Char × List Char)),
      taskRun inps (.loop_head i) s = some (.loop_head (i + k), s') ∧
      payloads.length = k ∧
      s'.calls = s.calls ++ (payloads.map cycleCalls).flatten ∧
      s'.publish_count = s.publish_count + 2 * (k : Int) ∧
      s'.mqtt_event_group = s.mqtt_event_group := by
  induction k with
  | zero =>
    intro inps i s hlen _ _
    have : inps = [] := List.length_eq_zero.mp (by omega)
    subst this
    exact ⟨s, [], by simp [taskRun]⟩
  | succ k ih =>
    intro inps i s hlen hik hb
    match inps, hlen with
    | a :: b :: c :: d :: rest, hlen =>
      obtain ⟨s1, h1, hc1, hp1, hg1⟩ := task_cycle a b c d i s (by omega) hb
      have hrest : rest.length = 4 * k := by simp at hlen; omega
      obtain ⟨s2, ps, h2, hl2, hc2, hp2, hg2⟩ := ih rest (i + 1) s1 hrest (by omega) (by rw [hg1]; exact hb)
      refine ⟨s2, (temp_msg (get_simulated_temperature b.r_temp) ((i : Int) + 1),
         hum_msg (get_simulated_humidity b.r_hum) ((i : Int) + 1)) :: ps, ?_, ?_, ?_, ?_, ?_⟩
      · have := taskRun_append [a, b, c, d] rest (.loop_head i) s
        rw [h1] at this
        simp only [Option.some_bind] at this
        rw [h2, Nat.add_assoc, Nat.add_comm 1 k] at this
        exact this
      · simp [hl2]
      · rw [hc2, hc1]; simp
      · rw [hp2, hp1]; push_cast; ring
      · rw [hg2, hg1]

/-- C9: started in a state with publish_count 0 and the connected bit set, and
run on its own (so that the session stays Connected), the task runs to its
end; the client calls it issues are those of exactly 10 cycles, each one
QoS-1 publish to esp32/sensors/temperature followed by one QoS-1 publish to
esp32/sensors/humidity, followed by one summary publish whose payload is
exactly the record with status complete and total_published 20. -/
theorem C9_full_run (w e1 e2 : TaskInput) (mid : List TaskInput) (s : State)
    (hmid : mid.length = 40) (hcount : s.publish_count = 0)
    (hconn : bitSet s.mqtt_event_group MQTT_CONNECTED_BIT = true) :
    ∃ (s' : State) (payloads : List (List Char × List Char)),
      taskRun (w :: (mid ++ [e1, e2])) .wait_connected s = some (.deleted, s') ∧
      payloads.length = 10 ∧
      s'.calls = s.calls ++
        (payloads.map (fun p => [ClientCall.publish "esp32/sensors/temperature".toList p.1 0 1 0,
          ClientCall.publish "esp32/sensors/humidity".toList p.2 0 1 0])).flatten ++
        [.publish "esp32/status".toList
          "\x7b\"status\":\"complete\",\"total_published\":20\x7d".toList 0 1 0] := by
  have h0 : sensor_publish_task w .wait_connected s = some (.loop_head 0,
      (((((s.logf .I "========================================").logf .I
        "Starting sensor publish loop").logf .I "  Publishing to: %s, %s").logf .I
        "  Interval: 5 seconds").logf .I "  Total readings: 10").logf .I
        "========================================") := by
    simp [sensor_publish_task, hconn]
  obtain ⟨s1, ps, h1, hl, hc, hp, _⟩ := task_cycles 10 mid 0 _ (by omega) (by omega)
    (show bitSet (((((((s.logf .I "========================================").logf .I
        "Starting sensor publish loop").logf .I "  Publishing to: %s, %s").logf .I
        "  Interval: 5 seconds").logf .I "  Total readings: 10").logf .I
        "========================================")).mqtt_event_group MQTT_CONNECTED_BIT = true
      from hconn)
  obtain ⟨s2, h2, hc2, _⟩ := summary_tail e1 e2 e2 s1
  refine ⟨s2, ps, ?_, hl, ?_⟩
  · simp only [taskRun, h0]
    rw [taskRun_append, h1]
    exact h2
  · rw [hc2, hc, hp]
    simp only [State.logf, hcount]
    have : final_msg (0 + 2 * ((10 : Nat) : Int)) =
        "\x7b\"status\":\"complete\",\"total_published\":20\x7d".toList := by decide
    rw [this]
    rfl

/-- C9 at a concrete input: the connected reset state and fixed random values. -/
theorem C9_full_run_witness :
    (List.replicate 40 (⟨false, 7, 8⟩ : TaskInput)).length = 40 ∧
    ({ State.reset with mqtt_event_group := 1 } : State).publish_count = 0 ∧
    bitSet ({ State.reset with mqtt_event_group := 1 } : State).mqtt_event_group
      MQTT_CONNECTED_BIT = true ∧
    ∃ (s' : State) (payloads : List (List Char × List Char)),
      taskRun (⟨false, 0, 0⟩ :: (List.replicate 40 (⟨false, 7, 8⟩ : TaskInput) ++
        [⟨false, 0, 0⟩, ⟨false, 0, 0⟩])) .wait_connected
        { State.reset with mqtt_event_group := 1 } = some (.deleted, s') ∧
      payloads.length = 10 ∧
      s'.calls = ({ State.reset with mqtt_event_group := 1 } : State).calls ++
        (payloads.map (fun p => [ClientCall.publish "esp32/sensors/temperature".toList p.1 0 1 0,
          ClientCall.publish "esp32/sensors/humidity".toList p.2 0 1 0])).flatten ++
        [.publish "esp32/status".toList
          "\x7b\"status\":\"complete\",\"total_published\":20\x7d".toList 0 1 0] :=
  ⟨by decide, rfl, by decide,
    C9_full_run ⟨false, 0, 0⟩ ⟨false, 0, 0⟩ ⟨false, 0, 0⟩ (List.replicate 40 ⟨false, 7, 8⟩)
      { State.reset with mqtt_event_group := 1 } (by decide) rfl (by decide)⟩

/-! ## Link readiness (claim C10) -/

/-- Delivering one more link event after a sequence. -/
theorem linkRun_snoc (s : State) (es : List LinkEvent) (e : LinkEvent) :
    linkRun s (es ++ [e]) = linkHandler (linkRun s es) e := by
  simp [linkRun, List.foldl_append]

/-- Splitting a sequence that ends in an event other than the address
assignment: the address assignment with no later link-down lies in the front
part, and the last event is not a link-down. -/
theorem split_snoc (es : List LinkEvent) (e g d : LinkEvent) (heg : e ≠ g) :
    (∃ pre post, es ++ [e] = pre ++ g :: post ∧ d ∉ post) ↔
      (e ≠ d ∧ ∃ pre post, es = pre ++ g :: post ∧ d ∉ post) := by
  constructor
  · rintro ⟨pre, post, h, hd⟩
    rcases List.eq_nil_or_concat post with rfl | ⟨L, b, rfl⟩
    · have h' : es ++ [e] = pre ++ [g] := h
      have := List.append_inj_right' h' rfl
      simp at this
      exact absurd this heg
    · have h' : es ++ [e] = (pre ++ g :: L) ++ [b] := by simpa using h
      have h1 := List.append_inj_left' h' rfl
      have h2 := List.append_inj_right' h' rfl
      simp at h2
      subst h2
      simp at hd
      exact ⟨fun hh => hd.2 hh.symm, pre, L, h1, hd.1⟩
  · rintro ⟨hed, pre, post, rfl, hd⟩
    refine ⟨pre, post ++ [e], by simp, ?_⟩
    simp
    exact ⟨hd, fun hh => hed hh.symm⟩

/-- Only the link-down event changes the event group in eth_event_handler. -/
theorem eth_group_frame (id : eth_event_t) (s : State)
    (h : id ≠ .ETHERNET_EVENT_DISCONNECTED) :
    (eth_event_handler id s).eth_event_group = s.eth_event_group := by
  cases id <;> simp_all [eth_event_handler, State.logf]

/-- C10: after any finite sequence of link events delivered from the reset
state, the readiness bit ETH_CONNECTED_BIT is set exactly when the sequence
contains an address assignment (IP_EVENT_ETH_GOT_IP) with no link-down event
after it.  A link-down clears the bit from every state, and the started,
connected and stopped events leave the event group as it is. -/
theorem C10_readiness_iff (es : List LinkEvent) (s : State) :
    (bitSet (linkRun State.reset es).eth_event_group ETH_CONNECTED_BIT = true ↔
      ∃ pre post, es = pre ++ LinkEvent.ip .IP_EVENT_ETH_GOT_IP :: post ∧
        LinkEvent.eth .ETHERNET_EVENT_DISCONNECTED ∉ post) ∧
    bitSet (eth_event_handler .ETHERNET_EVENT_DISCONNECTED s).eth_event_group
      ETH_CONNECTED_BIT = false ∧
    (eth_event_handler .ETHERNET_EVENT_START s).eth_event_group = s.eth_event_group ∧
    (eth_event_handler .ETHERNET_EVENT_CONNECTED s).eth_event_group = s.eth_event_group ∧
    (eth_event_handler .ETHERNET_EVENT_STOP s).eth_event_group = s.eth_event_group := by
  refine ⟨?_, ?_, eth_group_frame _ s (by decide), eth_group_frame _ s (by decide),
    eth_group_frame _ s (by decide)⟩
  · induction es using List.reverseRecOn with
    | nil =>
      constructor
      · intro h; exact absurd h (by decide)
      · rintro ⟨pre, post, h, _⟩; simp at h
    | append_singleton es e ih =>
      rw [linkRun_snoc]
      by_cases hg : e = LinkEvent.ip .IP_EVENT_ETH_GOT_IP
      · subst hg
        constructor
        · intro _; exact ⟨es, [], rfl, by simp⟩
        · intro _
          simp only [linkHandler, ip_event_handler, State.logf, ETH_CONNECTED_BIT, if_true]
          exact bitSet_set _
      · rw [split_snoc es e _ _ hg]
        by_cases hd : e = LinkEvent.eth .ETHERNET_EVENT_DISCONNECTED
        · subst hd
          constructor
          · intro h
            simp only [linkHandler, eth_event_handler, State.logf, ETH_CONNECTED_BIT] at h
            rw [bitSet_clear] at h
            exact absurd h (by decide)
          · rintro ⟨h, _⟩; exact absurd rfl h
        · have hframe : (linkHandler (linkRun State.reset es) e).eth_event_group =
              (linkRun State.reset es).eth_event_group := by
            cases e with
            | eth id =>
              exact eth_group_frame id _ (fun h => hd (by rw [h]))
            | ip id =>
              cases id with
              | IP_EVENT_ETH_GOT_IP => exact absurd rfl hg
              | OTHER n => simp [linkHandler, ip_event_handler]
          rw [hframe, ih]
          exact ⟨fun h => ⟨hd, h⟩, fun h => h.2⟩
  · simp only [eth_event_handler, State.logf, ETH_CONNECTED_BIT]
    exact bitSet_clear _

/-! ## Publishing and link readiness (claim C8) -/

/-- C8 (the claim as stated fails): a run of the system in which the link goes
down after the session is up.  In the state reached the readiness bit
ETH_CONNECTED_BIT is clear, and the next step of the task issues the
temperature publish all the same. -/
theorem C8_publish_while_link_down :
    Option.map (fun y => (bitSet y.st.eth_event_group ETH_CONNECTED_BIT, y.st.calls))
      (run 100 Sys.reset
        [.main false, .ip .IP_EVENT_ETH_GOT_IP, .main false, .main false,
         .mqtt 0 .MQTT_EVENT_CONNECTED (dataEvent "" ""), .main false,
         .task ⟨false, 0, 0⟩, .eth .ETHERNET_EVENT_DISCONNECTED, .task ⟨false, 0, 0⟩]) =
      some (false,
        [.publish "esp32/status".toList "online".toList 0 1 1,
         .subscribe "esp32/commands".toList 1,
         .subscribe "esp32/sensors/#".toList 0]) ∧
    Option.map (fun y => (bitSet y.st.eth_event_group ETH_CONNECTED_BIT, y.st.calls))
      (run 100 Sys.reset
        [.main false, .ip .IP_EVENT_ETH_GOT_IP, .main false, .main false,
         .mqtt 0 .MQTT_EVENT_CONNECTED (dataEvent "" ""), .main false,
         .task ⟨false, 0, 0⟩, .eth .ETHERNET_EVENT_DISCONNECTED, .task ⟨false, 0, 0⟩,
         .task ⟨false, 15, 123⟩]) =
      some (false,
        [.publish "esp32/status".toList "online".toList 0 1 1,
         .subscribe "esp32/commands".toList 1,
         .subscribe "esp32/sensors/#".toList 0,
         .publish "esp32/sensors/temperature".toList
           "\x7b\"device\":\"esp32-qemu-01\",\"value\":21.5,\"unit\":\"C\",\"reading\":1\x7d".toList
           0 1 0]) := by
  decide

@[simp]
theorem logf_eth_event_group (s : State) (l : LogLevel) (f : String) :
    (s.logf l f).eth_event_group = s.eth_event_group := rfl

@[simp]
theorem logf_mqtt_event_group (s : State) (l : LogLevel) (f : String) :
    (s.logf l f).mqtt_event_group = s.mqtt_event_group := rfl

@[simp]
theorem logf_mqtt_client (s : State) (l : LogLevel) (f : String) :
    (s.logf l f).mqtt_client = s.mqtt_client := rfl

@[simp]
theorem logf_publish_count (s : State) (l : LogLevel) (f : String) :
    (s.logf l f).publish_count = s.publish_count := rfl

@[simp]
theorem logf_calls (s : State) (l : LogLevel) (f : String) :
    (s.logf l f).calls = s.calls := rfl

@[simp]
theorem call_eth_event_group (s : State) (c : ClientCall) :
    (s.call c).eth_event_group = s.eth_event_group := rfl

@[simp]
theorem call_mqtt_event_group (s : State) (c : ClientCall) :
    (s.call c).mqtt_event_group = s.mqtt_event_group := rfl

@[simp]
theorem call_mqtt_client (s : State) (c : ClientCall) :
    (s.call c).mqtt_client = s.mqtt_client := rfl

@[simp]
theorem call_publish_count (s : State) (c : ClientCall) :
    (s.call c).publish_count = s.publish_count := rfl

@[simp]
theorem call_calls (s : State) (c : ClientCall) :
    (s.call c).calls = s.calls ++ [c] := rfl

/-- The MQTT handler leaves mqtt_client and eth_event_group as they are. -/
theorem mqtt_handler_frame (hz t : Nat) (id : esp_mqtt_event_id_t) (ev : esp_mqtt_event_t)
    (s : State) :
    (mqtt_event_handler hz t id ev s).mqtt_client = s.mqtt_client ∧
    (mqtt_event_handler hz t id ev s).eth_event_group = s.eth_event_group := by
  cases id <;> simp only [mqtt_event_handler] <;> (try split_ifs) <;> simp

/-- A step of the task leaves mqtt_client and eth_event_group as they are. -/
theorem task_frame (inp : TaskInput) (pc pc' : TaskPc) (s s' : State)
    (h : sensor_publish_task inp pc s = some (pc', s')) :
    s'.mqtt_client = s.mqtt_client ∧ s'.eth_event_group = s.eth_event_group := by
  cases pc <;> simp only [sensor_publish_task] at h <;>
    (try split_ifs at h) <;> simp at h <;> (obtain ⟨_, rfl⟩ := h) <;> simp

/-- The Ethernet handler issues no call and never sets the readiness bit. -/
theorem eth_handler_frame (id : eth_event_t) (s : State) :
    (eth_event_handler id s).mqtt_client = s.mqtt_client ∧
    (eth_event_handler id s).calls = s.calls ∧
    (bitSet (eth_event_handler id s).eth_event_group ETH_CONNECTED_BIT = true →
      bitSet s.eth_event_group ETH_CONNECTED_BIT = true) := by
  cases id <;> simp [eth_event_handler, ETH_CONNECTED_BIT, bitSet_clear]

/-- The IP handler issues no call; only the address assignment changes the bits. -/
theorem ip_handler_frame (id : ip_event_t) (s : State) :
    (ip_event_handler id s).mqtt_client = s.mqtt_client ∧
    (ip_event_handler id s).calls = s.calls ∧
    (id ≠ .IP_EVENT_ETH_GOT_IP →
      (ip_event_handler id s).eth_event_group = s.eth_event_group) := by
  cases id <;> simp [ip_event_handler]

/-- The invariant holds at reset. -/
theorem Inv_reset : Inv [] Sys.reset := by
  refine ⟨fun _ => ⟨rfl, rfl, by decide⟩, fun h => absurd rfl h, ?_⟩
  rintro (h | h | h)
  · exact absurd h (by decide)
  · exact absurd rfl h
  · exact absurd h (by decide)

/-- The invariant is kept by every move of the system. -/
theorem Inv_step (hz : Nat) (ls : List Label) (y y' : Sys) (l : Label)
    (hinv : Inv ls y) (hstep : step hz y l = some y') : Inv (ls ++ [l]) y' := by
  obtain ⟨i1, i2, i3⟩ := hinv
  cases l with
  | eth id =>
    simp only [step] at hstep
    split at hstep
    · simp only [Option.some.injEq] at hstep
      subst hstep
      obtain ⟨f1, f2, f3⟩ := eth_handler_frame id y.st
      refine ⟨?_, ?_, ?_⟩
      · simp only [f1, f2]; exact i1
      · simp only [f1]; exact i2
      · simp only [f1]
        rintro (h | h | h)
        · exact List.mem_append_left _ (i3 (Or.inl h))
        · exact List.mem_append_left _ (i3 (Or.inr (Or.inl h)))
        · exact List.mem_append_left _ (i3 (Or.inr (Or.inr (f3 h))))
    · exact absurd hstep (by simp)
  | ip id =>
    simp only [step] at hstep
    split at hstep
    · simp only [Option.some.injEq] at hstep
      subst hstep
      obtain ⟨f1, f2, f3⟩ := ip_handler_frame id y.st
      refine ⟨?_, ?_, ?_⟩
      · simp only [f1, f2]; exact i1
      · simp only [f1]; exact i2
      · simp only [f1]
        by_cases hid : id = .IP_EVENT_ETH_GOT_IP
        · subst hid; intro _; simp
        · rw [f3 hid]
          intro h
          exact List.mem_append_left _ (i3 h)
    · exact absurd hstep (by simp)
  | mqtt t id ev =>
    simp only [step] at hstep
    split at hstep
    · rename_i hc
      simp only [Option.some.injEq] at hstep
      subst hstep
      obtain ⟨f1, f2⟩ := mqtt_handler_frame hz t id ev y.st
      have hne : y.st.mqtt_client ≠ none := by
        intro h; rw [h] at hc; exact absurd hc (by decide)
      refine ⟨?_, ?_, ?_⟩
      · simp only [f1]; intro h; exact absurd h hne
      · simp only [f1]; exact i2
      · intro _
        exact List.mem_append_left _ (i3 (Or.inr (Or.inl hne)))
    · exact absurd hstep (by simp)
  | main timeout =>
    simp only [step, app_main] at hstep
    split at hstep
    · rename_i hm
      simp only [Option.some.injEq] at hstep
      subst hstep
      have hcl : y.st.mqtt_client = none := by
        by_contra h
        rcases i2 h with h' | h' <;> rw [hm] at h' <;> exact absurd h' (by simp)
      obtain ⟨c1, c2, _⟩ := i1 hcl
      refine ⟨fun _ => ⟨by simpa using c1, c2, by simp⟩, ?_, ?_⟩
      · intro h; exact absurd (by simpa using hcl) h
      · rintro (h | h | h)
        · exact absurd h (by simp)
        · exact absurd (by simpa using hcl) h
        · exact absurd h (by simp [bitSet])
    · rename_i hm
      have hcl : y.st.mqtt_client = none := by
        by_contra h
        rcases i2 h with h' | h' <;> rw [hm] at h' <;> exact absurd h' (by simp)
      obtain ⟨c1, c2, _⟩ := i1 hcl
      split at hstep
      · rename_i hw
        split at hstep
        · simp only [Option.some.injEq] at hstep
          subst hstep
          refine ⟨fun _ => ⟨by simpa using c1, c2, by simp⟩, ?_, ?_⟩
          · intro h; exact absurd (by simpa using hcl) h
          · rintro (h | h | h)
            · exact absurd h (by simp)
            · exact absurd (by simpa using hcl) h
            · exact List.mem_append_left _ (i3 (Or.inr (Or.inr (by simpa using h))))
        · rename_i hb
          simp only [Option.some.injEq] at hstep
          subst hstep
          have hb' : bitSet y.st.eth_event_group ETH_CONNECTED_BIT = true := by simpa using hb
          refine ⟨fun _ => ⟨c1, c2, by simp⟩, fun h => absurd hcl h, ?_⟩
          intro _
          exact List.mem_append_left _ (i3 (Or.inr (Or.inr hb')))
      · exact absurd hstep (by simp)
    · rename_i hm
      simp only [Option.some.injEq] at hstep
      subst hstep
      have hg := i3 (Or.inl hm)
      refine ⟨?_, fun _ => Or.inl rfl, fun _ => List.mem_append_left _ hg⟩
      intro h
      simp [init_mqtt] at h
    · rename_i hm
      have hne : y.st.mqtt_client ≠ none := fun h => (i1 h).2.2 hm
      have hg := i3 (Or.inr (Or.inl hne))
      split at hstep
      · split at hstep <;> simp only [Option.some.injEq] at hstep <;> subst hstep
        · refine ⟨?_, fun _ => Or.inr rfl, fun _ => List.mem_append_left _ hg⟩
          intro h; exact absurd (by simpa using h) hne
        · refine ⟨?_, fun _ => Or.inr rfl, fun _ => List.mem_append_left _ hg⟩
          intro h; exact absurd (by simpa using h) hne
      · exact absurd hstep (by simp)
    · exact absurd hstep (by simp)
  | task inp =>
    simp only [step] at hstep
    split at hstep
    · exact absurd hstep (by simp)
    · rename_i pc hpc
      split at hstep
      · exact absurd hstep (by simp)
      · rename_i pc' s' hs
        simp only [Option.some.injEq] at hstep
        subst hstep
        obtain ⟨f1, f2⟩ := task_frame inp pc pc' y.st s' hs
        have hne : y.st.mqtt_client ≠ none := by
          intro h
          have := (i1 h).2.1
          rw [hpc] at this
          exact absurd this (by simp)
        refine ⟨?_, ?_, ?_⟩
        · simp only [f1]; intro h; exact absurd h hne
        · simp only [f1]; exact i2
        · intro _
          exact List.mem_append_left _ (i3 (Or.inr (Or.inl hne)))

/-- The invariant is kept along every run. -/
theorem Inv_run (hz : Nat) (ls : List Label) : ∀ (pre : List Label) (y y' : Sys),
    Inv pre y → run hz y ls = some y' → Inv (pre ++ ls) y' := by
  induction ls with
  | nil =>
    intro pre y y' hinv hrun
    simp only [run, Option.some.injEq] at hrun
    subst hrun
    simpa using hinv
  | cons l ls ih =>
    intro pre y y' hinv hrun
    simp only [run] at hrun
    split at hrun
    · exact absurd hrun (by simp)
    · rename_i y1 h1
      have := ih (pre ++ [l]) y1 y' (Inv_step hz pre y y1 l hinv h1) hrun
      simpa using this

/-- C8 (amended): in every run of the system from reset, a client call
(publish or subscribe) is issued only after link readiness has been
established: if any call has been issued, an address assignment
(IP_EVENT_ETH_GOT_IP) is among the earlier moves, app_main is past its wait
on ETH_CONNECTED_BIT, and the client has been started.  Whether the bit is
still set at the time of a later publish is not checked by the code. -/
theorem C8_calls_only_after_address (hz : Nat) (ls : List Label) (y : Sys)
    (hrun : run hz Sys.reset ls = some y) (hcalls : y.st.calls ≠ []) :
    Label.ip .IP_EVENT_ETH_GOT_IP ∈ ls ∧
    (y.main = .wait_mqtt ∨ y.main = .returned) ∧
    y.st.mqtt_client ≠ none := by
  have hinv := Inv_run hz ls [] Sys.reset y Inv_reset hrun
  simp only [List.nil_append] at hinv
  obtain ⟨i1, i2, i3⟩ := hinv
  have hne : y.st.mqtt_client ≠ none := fun h => hcalls (i1 h).1
  exact ⟨i3 (Or.inr (Or.inl hne)), i2 hne, hne⟩

/-- C8 (amended) at a concrete run: address assigned, client started, session
established, so that the online publish and the two subscribes have been
issued. -/
theorem C8_calls_only_after_address_witness :
    run 100 Sys.reset sessionUpRun = some ((run 100 Sys.reset sessionUpRun).getD Sys.reset) ∧
    ((run 100 Sys.reset sessionUpRun).getD Sys.reset).st.calls ≠ [] ∧
    (Label.ip .IP_EVENT_ETH_GOT_IP ∈ sessionUpRun ∧
      (((run 100 Sys.reset sessionUpRun).getD Sys.reset).main = .wait_mqtt ∨
        ((run 100 Sys.reset sessionUpRun).getD Sys.reset).main = .returned) ∧
      ((run 100 Sys.reset sessionUpRun).getD Sys.reset).st.mqtt_client ≠ none) :=
  ⟨by decide, by decide,
    C8_calls_only_after_address 100 sessionUpRun _ (by decide) (by decide)⟩

/-! ## Structure of the moves -/

/-- What a move of the system is, label by label. -/
theorem step_cases (hz : Nat) (y y' : Sys) (l : Label) (h : step hz y l = some y') :
    (∃ id, l = .eth id ∧ y' = { y with st := eth_event_handler id y.st }) ∨
    (∃ id, l = .ip id ∧ y' = { y with st := ip_event_handler id y.st }) ∨
    (∃ t id ev, l = .mqtt t id ev ∧ y.st.mqtt_client ≠ none ∧
      y' = { y with st := mqtt_event_handler hz t id ev y.st }) ∨
    (∃ b, l = .main b ∧ app_main b y = some y') ∨
    (∃ inp pc pc' s', l = .task inp ∧ y.task = some pc ∧
      sensor_publish_task inp pc y.st = some (pc', s') ∧
      y' = { y with st := s', task := some pc' }) := by
  cases l with
  | eth id =>
    simp only [step] at h
    split at h
    · exact Or.inl ⟨id, rfl, by simpa using h.symm⟩
    · exact absurd h (by simp)
  | ip id =>
    simp only [step] at h
    split at h
    · exact Or.inr (Or.inl ⟨id, rfl, by simpa using h.symm⟩)
    · exact absurd h (by simp)
  | mqtt t id ev =>
    simp only [step] at h
    split at h
    · rename_i hc
      refine Or.inr (Or.inr (Or.inl ⟨t, id, ev, rfl, ?_, by simpa using h.symm⟩))
      intro hn; rw [hn] at hc; exact absurd hc (by decide)
    · exact absurd h (by simp)
  | main b => exact Or.inr (Or.inr (Or.inr (Or.inl ⟨b, rfl, h⟩)))
  | task inp =>
    simp only [step] at h
    split at h
    · exact absurd h (by simp)
    · rename_i pc hpc
      split at h
      · exact absurd h (by simp)
      · rename_i pc' s' hs
        exact Or.inr (Or.inr (Or.inr (Or.inr ⟨inp, pc, pc', s', rfl, hpc, hs,
          by simpa using h.symm⟩)))

/-- A property kept by every move is kept along every run. -/
theorem run_invariant (hz : Nat) (P : Sys → Prop)
    (hstep : ∀ y l y', P y → step hz y l = some y' → P y') :
    ∀ (ls : List Label) (y y' : Sys), P y → run hz y ls = some y' → P y' := by
  intro ls
  induction ls with
  | nil =>
    intro y y' hp hrun
    simp only [run, Option.some.injEq] at hrun
    subst hrun
    exact hp
  | cons l ls ih =>
    intro y y' hp hrun
    simp only [run] at hrun
    split at hrun
    · exact absurd hrun (by simp)
    · rename_i y1 h1
      exact ih y1 y' (hstep y l y1 hp h1) hrun

/-- The steps of app_main: where it stands before and after, and what it
changes. -/
theorem app_main_cases (b : Bool) (y y' : Sys) (h : app_main b y = some y') :
    y'.st.calls = y.st.calls ∧ y'.st.publish_count = y.st.publish_count ∧
    ((y.main = .start ∧ y'.main = .wait_eth ∧ y'.task = y.task ∧
        y'.st.mqtt_client = y.st.mqtt_client) ∨
     (y.main = .wait_eth ∧ bitSet y.st.eth_event_group ETH_CONNECTED_BIT = false ∧
        b = true ∧ y'.main = .returned ∧ y'.task = y.task ∧
        y'.st.mqtt_client = y.st.mqtt_client ∧
        (⟨.E, "Failed to get IP address within 30 seconds!"⟩ : LogEntry) ∈ y'.st.log) ∨
     (y.main = .wait_eth ∧ bitSet y.st.eth_event_group ETH_CONNECTED_BIT = true ∧
        y'.main = .delay ∧ y'.task = y.task ∧ y'.st.mqtt_client = y.st.mqtt_client) ∨
     (y.main = .delay ∧ y'.main = .wait_mqtt ∧ y'.task = y.task ∧
        y'.st.mqtt_client = some mqtt_cfg) ∨
     (y.main = .wait_mqtt ∧ bitSet y.st.mqtt_event_group MQTT_CONNECTED_BIT = false ∧
        b = true ∧ y'.main = .returned ∧ y'.task = y.task ∧
        y'.st.mqtt_client = y.st.mqtt_client ∧
        (⟨.E, "Failed to connect to MQTT broker within 30 seconds!"⟩ : LogEntry) ∈ y'.st.log) ∨
     (y.main = .wait_mqtt ∧ bitSet y.st.mqtt_event_group MQTT_CONNECTED_BIT = true ∧
        y'.main = .returned ∧ y'.task = some .wait_connected ∧
        y'.st.mqtt_client = y.st.mqtt_client)) := by
  simp only [app_main] at h
  split at h
  · rename_i hm
    simp only [Option.some.injEq] at h
    subst h
    exact ⟨by simp, by simp, Or.inl ⟨hm, rfl, rfl, by simp⟩⟩
  · rename_i hm
    split at h
    · rename_i hw
      split at h
      · rename_i hb
        simp only [Option.some.injEq] at h
        subst h
        have hb' : bitSet y.st.eth_event_group ETH_CONNECTED_BIT = false := by simpa using hb
        have hb2 : b = true := by simpa [hb'] using hw
        exact ⟨by simp, by simp, Or.inr (Or.inl ⟨hm, hb', hb2, rfl, rfl, by simp,
          by simp [State.logf]⟩)⟩
      · rename_i hb
        simp only [Option.some.injEq] at h
        subst h
        have hb' : bitSet y.st.eth_event_group ETH_CONNECTED_BIT = true := by simpa using hb
        exact ⟨rfl, rfl, Or.inr (Or.inr (Or.inl ⟨hm, hb', rfl, rfl, rfl⟩))⟩
    · exact absurd h (by simp)
  · rename_i hm
    simp only [Option.some.injEq] at h
    subst h
    exact ⟨by simp [init_mqtt], by simp [init_mqtt],
      Or.inr (Or.inr (Or.inr (Or.inl ⟨hm, rfl, rfl, by simp [init_mqtt, mqtt_cfg]⟩)))⟩
  · rename_i hm
    split at h
    · rename_i hw
      split at h
      · rename_i hb
        simp only [Option.some.injEq] at h
        subst h
        have hb' : bitSet y.st.mqtt_event_group MQTT_CONNECTED_BIT = false := by simpa using hb
        have hb2 : b = true := by simpa [hb'] using hw
        exact ⟨by simp, by simp, Or.inr (Or.inr (Or.inr (Or.inr (Or.inl
          ⟨hm, hb', hb2, rfl, rfl, by simp, by simp [State.logf]⟩))))⟩
      · rename_i hb
        simp only [Option.some.injEq] at h
        subst h
        have hb' : bitSet y.st.mqtt_event_group MQTT_CONNECTED_BIT = true := by simpa using hb
        exact ⟨by simp, by simp, Or.inr (Or.inr (Or.inr (Or.inr (Or.inr
          ⟨hm, hb', rfl, rfl, by simp⟩))))⟩
    · exact absurd h (by simp)
  · exact absurd h (by simp)

/-! ## Failure of the link bring-up (claim C11) -/

/-- Once app_main has returned without starting the client, nothing more
happens: no client, no task, no client call, whatever events arrive. -/
theorem dead_step (hz : Nat) (y : Sys) (l : Label) (y' : Sys)
    (hd : y.main = .returned ∧ y.st.mqtt_client = none ∧ y.task = none ∧ y.st.calls = [])
    (h : step hz y l = some y') :
    y'.main = .returned ∧ y'.st.mqtt_client = none ∧ y'.task = none ∧ y'.st.calls = [] := by
  obtain ⟨d1, d2, d3, d4⟩ := hd
  rcases step_cases hz y y' l h with ⟨id, _, rfl⟩ | ⟨id, _, rfl⟩ | ⟨t, id, ev, _, hne, _⟩ |
    ⟨b, _, hm⟩ | ⟨inp, pc, pc', s', _, hpc, _, _⟩
  · obtain ⟨f1, f2, _⟩ := eth_handler_frame id y.st
    exact ⟨d1, by simpa [f1] using d2, d3, by simpa [f2] using d4⟩
  · obtain ⟨f1, f2, _⟩ := ip_handler_frame id y.st
    exact ⟨d1, by simpa [f1] using d2, d3, by simpa [f2] using d4⟩
  · exact absurd d2 hne
  · obtain ⟨_, _, hc⟩ := app_main_cases b y y' hm
    rw [d1] at hc
    simp at hc
  · rw [d3] at hpc
    exact absurd hpc (by simp)

/-- C11: if the wait of app_main on ETH_CONNECTED_BIT finds the bit clear (no
address has been assigned), the wait can only end by its timeout, and then
app_main logs the failure and returns.  From then on, whatever events arrive,
init_mqtt has not been called (there is no client), the publishing task does
not exist, and no publish or subscribe has been issued. -/
theorem C11_link_timeout_fatal (hz : Nat) (ls ls' : List Label) (y y'' : Sys)
    (hrun : run hz Sys.reset ls = some y) (hmain : y.main = .wait_eth)
    (hbit : bitSet y.st.eth_event_group ETH_CONNECTED_BIT = false)
    (hrest : run hz y (.main true :: ls') = some y'') :
    step hz y (.main false) = none ∧
    (∃ y', step hz y (.main true) = some y' ∧ y'.main = .returned ∧
      (⟨.E, "Failed to get IP address within 30 seconds!"⟩ : LogEntry) ∈ y'.st.log) ∧
    y''.main = .returned ∧ y''.st.mqtt_client = none ∧ y''.task = none ∧
    y''.st.calls = [] := by
  have hinv := Inv_run hz ls [] Sys.reset y Inv_reset hrun
  obtain ⟨i1, i2, _⟩ := hinv
  have hcl : y.st.mqtt_client = none := by
    by_contra hne
    rcases i2 hne with h' | h' <;> rw [hmain] at h' <;> exact absurd h' (by simp)
  obtain ⟨c1, c2, _⟩ := i1 hcl
  simp only [run] at hrest
  split at hrest
  · exact absurd hrest (by simp)
  · rename_i y1 h1
    have hm : app_main true y = some y1 := h1
    obtain ⟨k1, _, hc⟩ := app_main_cases true y y1 hm
    rw [hmain, hbit] at hc
    simp at hc
    obtain ⟨m1, m2, m3, m4⟩ := hc
    have hdead := run_invariant hz
      (fun z => z.main = .returned ∧ z.st.mqtt_client = none ∧ z.task = none ∧ z.st.calls = [])
      (fun z l z' hz' hs => dead_step hz z l z' hz' hs) ls' y1 y''
      ⟨m1, by rw [m3]; exact hcl, by rw [m2]; exact c2, by rw [k1]; exact c1⟩ hrest
    refine ⟨?_, ⟨y1, h1, m1, m4⟩, hdead⟩
    simp [step, app_main, hmain, hbit]

/-- C11 at a concrete run: Ethernet starts and the link comes up, but no
address is assigned; after the timeout a late address assignment arrives. -/
theorem C11_link_timeout_fatal_witness :
    run 100 Sys.reset noAddressRun = some ((run 100 Sys.reset noAddressRun).getD Sys.reset) ∧
    ((run 100 Sys.reset noAddressRun).getD Sys.reset).main = .wait_eth ∧
    bitSet ((run 100 Sys.reset noAddressRun).getD Sys.reset).st.eth_event_group
      ETH_CONNECTED_BIT = false ∧
    run 100 ((run 100 Sys.reset noAddressRun).getD Sys.reset)
      [.main true, .ip .IP_EVENT_ETH_GOT_IP] =
      some ((run 100 Sys.reset (noAddressRun ++ [.main true, .ip .IP_EVENT_ETH_GOT_IP])).getD
        Sys.reset) ∧
    (step 100 ((run 100 Sys.reset noAddressRun).getD Sys.reset) (.main false) = none ∧
    (∃ y', step 100 ((run 100 Sys.reset noAddressRun).getD Sys.reset) (.main true) = some y' ∧
      y'.main = .returned ∧
      (⟨.E, "Failed to get IP address within 30 seconds!"⟩ : LogEntry) ∈ y'.st.log) ∧
    ((run 100 Sys.reset (noAddressRun ++ [.main true, .ip .IP_EVENT_ETH_GOT_IP])).getD
      Sys.reset).main = .returned ∧
    ((run 100 Sys.reset (noAddressRun ++ [.main true, .ip .IP_EVENT_ETH_GOT_IP])).getD
      Sys.reset).st.mqtt_client = none ∧
    ((run 100 Sys.reset (noAddressRun ++ [.main true, .ip .IP_EVENT_ETH_GOT_IP])).getD
      Sys.reset).task = none ∧
    ((run 100 Sys.reset (noAddressRun ++ [.main true, .ip .IP_EVENT_ETH_GOT_IP])).getD
      Sys.reset).st.calls = []) :=
  ⟨by decide, by decide, by decide, by decide,
    C11_link_timeout_fatal 100 noAddressRun [.ip .IP_EVENT_ETH_GOT_IP] _ _
      (by decide) (by decide) (by decide) (by decide)⟩

/-! ## Effects of the MQTT handler (claims C12, C17, C18, C20) -/

/-- The client calls of one handler invocation: the three calls of session
setup on MQTT_EVENT_CONNECTED; otherwise none, or the one status reply. -/
theorem mqtt_handler_calls (hz t : Nat) (id : esp_mqtt_event_id_t) (ev : esp_mqtt_event_t)
    (s : State) :
    (id = .MQTT_EVENT_CONNECTED ∧
      (mqtt_event_handler hz t id ev s).calls = s.calls ++ connectCalls) ∨
    (id ≠ .MQTT_EVENT_CONNECTED ∧
      ((mqtt_event_handler hz t id ev s).calls = s.calls ∨
       ∃ u, (mqtt_event_handler hz t id ev s).calls =
         s.calls ++ [.publish TOPIC_STATUS (status_msg u s.publish_count) 0 0 0])) := by
  cases id with
  | MQTT_EVENT_CONNECTED => left; simp [mqtt_event_handler, connectCalls]
  | MQTT_EVENT_DATA =>
    right
    refine ⟨by simp, ?_⟩
    simp only [mqtt_event_handler]
    split_ifs
    · left; simp
    · right; exact ⟨toInt32 (t % 2 ^ 32 / hz), by simp⟩
    · left; simp
    · left; simp
  | MQTT_EVENT_ERROR =>
    right
    refine ⟨by simp, Or.inl ?_⟩
    simp only [mqtt_event_handler]
    split_ifs <;> simp
  | MQTT_EVENT_DISCONNECTED => right; exact ⟨by simp, Or.inl (by simp [mqtt_event_handler])⟩
  | MQTT_EVENT_SUBSCRIBED => right; exact ⟨by simp, Or.inl (by simp [mqtt_event_handler])⟩
  | MQTT_EVENT_PUBLISHED => right; exact ⟨by simp, Or.inl (by simp [mqtt_event_handler])⟩
  | OTHER n => right; exact ⟨by simp, Or.inl (by simp [mqtt_event_handler])⟩

/-- Delivering a first event and then the rest. -/
theorem mqttRun_cons (hz : Nat) (s : State) (e : MqttDelivery) (es : List MqttDelivery) :
    mqttRun hz s (e :: es) =
      mqttRun hz (mqtt_event_handler hz e.ticks e.event_id e.event s) es := rfl

/-- Delivering one more event after a sequence. -/
theorem mqttRun_snoc (hz : Nat) (s : State) (es : List MqttDelivery) (e : MqttDelivery) :
    mqttRun hz s (es ++ [e]) =
      mqtt_event_handler hz e.ticks e.event_id e.event (mqttRun hz s es) := by
  simp [mqttRun, List.foldl_append]

/-- The subscribe counts of one handler invocation. -/
theorem mqtt_handler_subscribes (hz : Nat) (e : MqttDelivery) (s : State) :
    (mqtt_event_handler hz e.ticks e.event_id e.event s).calls.countP
        (isSubscribeTo "esp32/commands".toList) =
      s.calls.countP (isSubscribeTo "esp32/commands".toList) + [e].countP isConnected ∧
    (mqtt_event_handler hz e.ticks e.event_id e.event s).calls.countP
        (isSubscribeTo "esp32/sensors/#".toList) =
      s.calls.countP (isSubscribeTo "esp32/sensors/#".toList) + [e].countP isConnected ∧
    (mqtt_event_handler hz e.ticks e.event_id e.event s).calls.countP isSubscribe =
      s.calls.countP isSubscribe + 2 * [e].countP isConnected := by
  rcases mqtt_handler_calls hz e.ticks e.event_id e.event s with ⟨hid, hc⟩ | ⟨hid, hc | ⟨u, hc⟩⟩
  · have h1 : isConnected e = true := by simp [isConnected, hid]
    have h2 : connectCalls.countP (isSubscribeTo "esp32/commands".toList) = 1 := by decide
    have h3 : connectCalls.countP (isSubscribeTo "esp32/sensors/#".toList) = 1 := by decide
    have h4 : connectCalls.countP isSubscribe = 2 := by decide
    rw [hc, List.countP_append, List.countP_append, List.countP_append, h2, h3, h4]
    simp [h1]
  · have h1 : isConnected e = false := by simp [isConnected, hid]
    simp [hc, h1]
  · have h1 : isConnected e = false := by simp [isConnected, hid]
    simp [hc, List.countP_append, h1, isSubscribeTo, isSubscribe]

/-- C12: for every sequence of MQTT events delivered to mqtt_event_handler from
any state, the number of subscribe calls issued for esp32/commands, and the
number issued for esp32/sensors/#, each equal the number of
MQTT_EVENT_CONNECTED events in the sequence, and the number of all subscribe
calls issued is twice that: each entry to Connected applies each of the two
filters exactly once and no other event subscribes. -/
theorem C12_subscribes_per_connect (hz : Nat) (es : List MqttDelivery) (s : State) :
    (mqttRun hz s es).calls.countP (isSubscribeTo "esp32/commands".toList) =
      s.calls.countP (isSubscribeTo "esp32/commands".toList) + es.countP isConnected ∧
    (mqttRun hz s es).calls.countP (isSubscribeTo "esp32/sensors/#".toList) =
      s.calls.countP (isSubscribeTo "esp32/sensors/#".toList) + es.countP isConnected ∧
    (mqttRun hz s es).calls.countP isSubscribe =
      s.calls.countP isSubscribe + 2 * es.countP isConnected := by
  induction es generalizing s with
  | nil => simp [mqttRun]
  | cons e es ih =>
    rw [mqttRun_cons]
    obtain ⟨a1, a2, a3⟩ := ih (mqtt_event_handler hz e.ticks e.event_id e.event s)
    obtain ⟨b1, b2, b3⟩ := mqtt_handler_subscribes hz e s
    have hcons : (e :: es).countP isConnected = [e].countP isConnected + es.countP isConnected := by
      rw [← List.countP_append]; rfl
    rw [a1, a2, a3, b1, b2, b3, hcons]
    refine ⟨by ring, by ring, by ring⟩

/-! ## Telemetry records (claim C13) -/

/-- A number below 10 is rendered as its one digit. -/
theorem toDigits_digit (k : Nat) (h : k < 10) : Nat.toDigits 10 k = [Nat.digitChar k] := by
  simp [Nat.toDigits, Nat.toDigitsCore, Nat.div_eq_of_lt h, Nat.mod_eq_of_lt h]

/-- The %.1f rendering has exactly one digit after the point. -/
theorem fmt_1f_shape (v : Nat) :
    fmt_1f v = Nat.toDigits 10 (v / 10) ++ ['.', Nat.digitChar (v % 10)] := by
  unfold fmt_1f
  rw [toDigits_digit (v % 10) (Nat.mod_lt _ (by decide))]

/-- The %.1f rendering of a reading below 1000.0 has at most 12 characters. -/
theorem fmt_1f_length_le (v : Nat) (h : v < 10 ^ 10) : (fmt_1f v).length ≤ 12 := by
  have h1 := toDigits_length_le (v / 10) (by omega)
  rw [fmt_1f_shape]
  simp
  omega

/-- The temperature record fits its 128-byte buffer. -/
theorem temp_msg_eq (v : Nat) (k : Int) (hv : v < 10 ^ 10) (hk : -2 ^ 31 ≤ k ∧ k < 2 ^ 31) :
    temp_msg v k = "\x7b\"device\":\"esp32-qemu-01\",\"value\":".toList ++ fmt_1f v ++
      ",\"unit\":\"C\",\"reading\":".toList ++ fmt_d k ++ "\x7d".toList := by
  have h1 := fmt_1f_length_le v hv
  have h2 := fmt_d_length_le k hk.1 hk.2
  unfold temp_msg snprintf
  rw [List.take_of_length_le]
  · simp [CLIENT_ID]
  · simp [CLIENT_ID]
    omega

/-- The humidity record fits its 128-byte buffer. -/
theorem hum_msg_eq (v : Nat) (k : Int) (hv : v < 10 ^ 10) (hk : -2 ^ 31 ≤ k ∧ k < 2 ^ 31) :
    hum_msg v k = "\x7b\"device\":\"esp32-qemu-01\",\"value\":".toList ++ fmt_1f v ++
      ",\"unit\":\"%\",\"reading\":".toList ++ fmt_d k ++ "\x7d".toList := by
  have h1 := fmt_1f_length_le v hv
  have h2 := fmt_d_length_le k hk.1 hk.2
  unfold hum_msg snprintf
  rw [List.take_of_length_le]
  · simp [CLIENT_ID]
  · simp [CLIENT_ID]
    omega

/-- The steps of the task: where it goes and which client call it makes. -/
theorem task_step_cases (inp : TaskInput) (pc pc' : TaskPc) (s s' : State)
    (h : sensor_publish_task inp pc s = some (pc', s')) :
    s'.mqtt_event_group = s.mqtt_event_group ∧
    match pc with
    | .wait_connected => pc' = .loop_head 0 ∧ s'.calls = s.calls ∧
        s'.publish_count = s.publish_count
    | .loop_head i => s'.calls = s.calls ∧ s'.publish_count = s.publish_count ∧
        ((i < 10 ∧ (pc' = .wait_reconnect i ∨ pc' = .publish_temp i)) ∨
         (¬ i < 10 ∧ pc' = .final))
    | .wait_reconnect i => pc' = .publish_temp i ∧ s'.calls = s.calls ∧
        s'.publish_count = s.publish_count
    | .publish_temp i => pc' = .publish_hum i (get_simulated_humidity inp.r_hum) ∧
        s'.calls = s.calls ++ [.publish TOPIC_TEMPERATURE
          (temp_msg (get_simulated_temperature inp.r_temp) ((i : Int) + 1)) 0 1 0] ∧
        s'.publish_count = s.publish_count
    | .publish_hum i hum => pc' = .count i ∧
        s'.calls = s.calls ++ [.publish TOPIC_HUMIDITY (hum_msg hum ((i : Int) + 1)) 0 1 0] ∧
        s'.publish_count = s.publish_count
    | .count i => pc' = .loop_head (i + 1) ∧ s'.calls = s.calls ∧
        s'.publish_count = s.publish_count + 2
    | .final => pc' = .deleted ∧
        s'.calls = s.calls ++ [.publish TOPIC_STATUS (final_msg s.publish_count) 0 1 0] ∧
        s'.publish_count = s.publish_count
    | .deleted => False := by
  cases pc <;> simp only [sensor_publish_task] at h <;> (try split_ifs at h) <;>
    simp at h <;> (try obtain ⟨rfl, rfl⟩ := h) <;> simp_all

/-- C13: every step of the task at a control point it can reach issues either
no client call or exactly one publish, with QoS 1 and retain 0.  The publish
at the temperature step goes to esp32/sensors/temperature and the one at the
humidity step to esp32/sensors/humidity; its payload is the record with the
fields device esp32-qemu-01, value, unit (C or %) and reading, where reading
is the loop index plus one, the 1-based number of the cycle.  The value is
written with exactly one digit after the decimal point.  The only other
publish of the task is the summary, which goes to esp32/status. -/
theorem C13_telemetry_records (inp : TaskInput) (pc pc' : TaskPc) (s s' : State)
    (hok : pcOk pc) (h : sensor_publish_task inp pc s = some (pc', s')) :
    (match pc with
     | .publish_temp i =>
       s'.calls = s.calls ++ [.publish "esp32/sensors/temperature".toList
         ("\x7b\"device\":\"esp32-qemu-01\",\"value\":".toList ++
           fmt_1f (get_simulated_temperature inp.r_temp) ++
           ",\"unit\":\"C\",\"reading\":".toList ++ fmt_d ((i : Int) + 1) ++ "\x7d".toList) 0 1 0]
     | .publish_hum i hum =>
       s'.calls = s.calls ++ [.publish "esp32/sensors/humidity".toList
         ("\x7b\"device\":\"esp32-qemu-01\",\"value\":".toList ++ fmt_1f hum ++
           ",\"unit\":\"%\",\"reading\":".toList ++ fmt_d ((i : Int) + 1) ++ "\x7d".toList) 0 1 0]
     | .final =>
       s'.calls = s.calls ++ [.publish "esp32/status".toList (final_msg s.publish_count) 0 1 0]
     | _ => s'.calls = s.calls) ∧
    ∀ v, fmt_1f v = Nat.toDigits 10 (v / 10) ++ ['.', Nat.digitChar (v % 10)] := by
  refine ⟨?_, fmt_1f_shape⟩
  obtain ⟨_, hc⟩ := task_step_cases inp pc pc' s s' h
  cases pc with
  | publish_temp i =>
    simp only [pcOk] at hok
    simp only at hc ⊢
    rw [hc.2.1, temp_msg_eq _ _ (by unfold get_simulated_temperature; omega) (by omega)]
    rfl
  | publish_hum i hum =>
    simp only [pcOk] at hok
    simp only at hc ⊢
    rw [hc.2.1, hum_msg_eq _ _ (by omega) (by omega)]
    rfl
  | final => simp only at hc ⊢; rw [hc.2.1]; rfl
  | wait_connected => exact hc.2.1
  | loop_head i => exact hc.1
  | wait_reconnect i => exact hc.2.1
  | count i => exact hc.2.1
  | deleted => exact absurd hc (by simp)

/-- C13 at a concrete step: the temperature publish of the first cycle. -/
theorem C13_telemetry_records_witness :
    pcOk (.publish_temp 0) ∧
    sensor_publish_task ⟨false, 15, 123⟩ (.publish_temp 0) State.reset =
      some ((sensor_publish_task ⟨false, 15, 123⟩ (.publish_temp 0) State.reset).getD
        (.deleted, State.reset)) ∧
    (((sensor_publish_task ⟨false, 15, 123⟩ (.publish_temp 0) State.reset).getD
        (.deleted, State.reset)).2.calls = State.reset.calls ++
      [.publish "esp32/sensors/temperature".toList
         ("\x7b\"device\":\"esp32-qemu-01\",\"value\":".toList ++
           fmt_1f (get_simulated_temperature (⟨false, 15, 123⟩ : TaskInput).r_temp) ++
           ",\"unit\":\"C\",\"reading\":".toList ++ fmt_d (((0 : Nat) : Int) + 1) ++
           "\x7d".toList) 0 1 0] ∧
    ∀ v, fmt_1f v = Nat.toDigits 10 (v / 10) ++ ['.', Nat.digitChar (v % 10)]) :=
  ⟨by simp [pcOk], by decide,
    C13_telemetry_records ⟨false, 15, 123⟩ (.publish_temp 0)
      ((sensor_publish_task ⟨false, 15, 123⟩ (.publish_temp 0) State.reset).getD
        (.deleted, State.reset)).1 State.reset
      ((sensor_publish_task ⟨false, 15, 123⟩ (.publish_temp 0) State.reset).getD
        (.deleted, State.reset)).2
      (by simp [pcOk]) (by decide)⟩

/-! ## The last will (claim C14) -/

/-- Every message formatted by the program starts with an opening brace, so it
is not the text offline. -/
theorem formatted_ne_offline (u n : Int) (v : Nat) :
    status_msg u n ≠ "offline".toList ∧ temp_msg v n ≠ "offline".toList ∧
    hum_msg v n ≠ "offline".toList ∧ final_msg n ≠ "offline".toList := by
  refine ⟨?_, ?_, ?_, ?_⟩ <;> intro h <;> have := congrArg List.head? h <;>
    simp [status_msg, temp_msg, hum_msg, final_msg, snprintf] at this

/-- The calls of one handler invocation are handler calls. -/
theorem mqtt_handler_calls_known (hz t : Nat) (id : esp_mqtt_event_id_t)
    (ev : esp_mqtt_event_t) (s : State) :
    ∃ cs, (mqtt_event_handler hz t id ev s).calls = s.calls ++ cs ∧
      ∀ c ∈ cs, HandlerCall c := by
  rcases mqtt_handler_calls hz t id ev s with ⟨_, hc⟩ | ⟨_, hc | ⟨u, hc⟩⟩
  · refine ⟨connectCalls, hc, ?_⟩
    intro c hmem
    simp only [connectCalls, List.mem_cons, List.mem_singleton, List.mem_nil_iff,
      or_false] at hmem
    rcases hmem with h | h | h
    · exact Or.inl h
    · exact Or.inr (Or.inl h)
    · exact Or.inr (Or.inr (Or.inl h))
  · exact ⟨[], by simpa using hc, by simp⟩
  · refine ⟨_, hc, ?_⟩
    intro c hmem
    simp only [List.mem_singleton] at hmem
    exact Or.inr (Or.inr (Or.inr ⟨u, s.publish_count, hmem⟩))

/-- A step of the task makes no call or one task call. -/
theorem task_step_calls_known (inp : TaskInput) (pc pc' : TaskPc) (s s' : State)
    (h : sensor_publish_task inp pc s = some (pc', s')) :
    ∃ cs, s'.calls = s.calls ++ cs ∧ ∀ c ∈ cs, TaskCall c := by
  obtain ⟨_, hc⟩ := task_step_cases inp pc pc' s s' h
  cases pc with
  | publish_temp i =>
    refine ⟨_, hc.2.1, ?_⟩
    intro c hmem
    simp only [List.mem_singleton] at hmem
    exact Or.inl ⟨_, _, hmem⟩
  | publish_hum i hum =>
    refine ⟨_, hc.2.1, ?_⟩
    intro c hmem
    simp only [List.mem_singleton] at hmem
    exact Or.inr (Or.inl ⟨_, _, hmem⟩)
  | final =>
    refine ⟨_, hc.2.1, ?_⟩
    intro c hmem
    simp only [List.mem_singleton] at hmem
    exact Or.inr (Or.inr ⟨_, hmem⟩)
  | wait_connected => exact ⟨[], by simpa using hc.2.1, by simp⟩
  | loop_head i => exact ⟨[], by simpa using hc.1, by simp⟩
  | wait_reconnect i => exact ⟨[], by simpa using hc.2.1, by simp⟩
  | count i => exact ⟨[], by simpa using hc.2.1, by simp⟩
  | deleted => exact absurd hc (by simp)

/-- Along every run the client configuration, once set, is the one built by
init_mqtt, and every client call is a handler call or a task call. -/
theorem known_step (hz : Nat) (y : Sys) (l : Label) (y' : Sys)
    (hk : (y.st.mqtt_client = none ∨ y.st.mqtt_client = some mqtt_cfg) ∧
      ∀ c ∈ y.st.calls, HandlerCall c ∨ TaskCall c)
    (h : step hz y l = some y') :
    (y'.st.mqtt_client = none ∨ y'.st.mqtt_client = some mqtt_cfg) ∧
      ∀ c ∈ y'.st.calls, HandlerCall c ∨ TaskCall c := by
  obtain ⟨k1, k2⟩ := hk
  rcases step_cases hz y y' l h with ⟨id, _, rfl⟩ | ⟨id, _, rfl⟩ | ⟨t, id, ev, _, _, rfl⟩ |
    ⟨b, _, hm⟩ | ⟨inp, pc, pc', s', _, _, hs, rfl⟩
  · obtain ⟨f1, f2, _⟩ := eth_handler_frame id y.st
    exact ⟨by simpa [f1] using k1, by simpa [f2] using k2⟩
  · obtain ⟨f1, f2, _⟩ := ip_handler_frame id y.st
    exact ⟨by simpa [f1] using k1, by simpa [f2] using k2⟩
  · obtain ⟨f1, _⟩ := mqtt_handler_frame hz t id ev y.st
    obtain ⟨cs, hc, hcs⟩ := mqtt_handler_calls_known hz t id ev y.st
    refine ⟨by simpa [f1] using k1, ?_⟩
    intro c hmem
    simp only [hc, List.mem_append] at hmem
    rcases hmem with hmem | hmem
    · exact k2 c hmem
    · exact Or.inl (hcs c hmem)
  · obtain ⟨hcalls, _, hc⟩ := app_main_cases b y y' hm
    refine ⟨?_, by rw [hcalls]; exact k2⟩
    rcases hc with hc | hc | hc | hc | hc | hc
    · rw [hc.2.2.2]; exact k1
    · rw [hc.2.2.2.2.2.1]; exact k1
    · rw [hc.2.2.2.2]; exact k1
    · exact Or.inr hc.2.2.2
    · rw [hc.2.2.2.2.2.1]; exact k1
    · rw [hc.2.2.2.2]; exact k1
  · obtain ⟨f1, _⟩ := task_frame inp pc pc' y.st s' hs
    obtain ⟨cs, hc, hcs⟩ := task_step_calls_known inp pc pc' y.st s' hs
    refine ⟨by simpa [f1] using k1, ?_⟩
    intro c hmem
    simp only [hc, List.mem_append] at hmem
    rcases hmem with hmem | hmem
    · exact k2 c hmem
    · exact Or.inr (hcs c hmem)

/-- C14: the configuration built by init_mqtt carries one last will: topic
esp32/status (the topic of the online and status-reply publishes), payload
offline, QoS 1, retained, with msg_len 7 equal to the length of the payload.
In every run of the system the client configuration is either absent or this
one, so the last will is never changed, and no client call publishes the
payload offline. -/
theorem C14_last_will (hz : Nat) (ls : List Label) (y : Sys) (s : State)
    (hrun : run hz Sys.reset ls = some y) :
    Option.map (fun c => c.last_will) (init_mqtt s).mqtt_client =
      some { topic := "esp32/status".toList, msg := "offline".toList, msg_len := 7,
             qos := 1, retain := 1 } ∧
    ((7 : Int) = ("offline".toList.length : Int)) ∧ TOPIC_STATUS = "esp32/status".toList ∧
    (y.st.mqtt_client = none ∨ y.st.mqtt_client = (init_mqtt s).mqtt_client) ∧
    ∀ c ∈ y.st.calls, ∀ t l q r, c ≠ .publish t "offline".toList l q r := by
  have hk := run_invariant hz
    (fun z => (z.st.mqtt_client = none ∨ z.st.mqtt_client = some mqtt_cfg) ∧
      ∀ c ∈ z.st.calls, HandlerCall c ∨ TaskCall c)
    (fun z l z' hz' hs => known_step hz z l z' hz' hs) ls Sys.reset y
    ⟨Or.inl rfl, by simp [Sys.reset, State.reset]⟩ hrun
  refine ⟨by simp [init_mqtt, TOPIC_STATUS], by decide, rfl, ?_, ?_⟩
  · have : (init_mqtt s).mqtt_client = some mqtt_cfg := by simp [init_mqtt, mqtt_cfg]
    rw [this]; exact hk.1
  · intro c hmem t l q r hc
    subst hc
    rcases hk.2 _ hmem with (h | h | h | ⟨u, n, h⟩) | (⟨v, k, h⟩ | ⟨v, k, h⟩ | ⟨n, h⟩)
    · injection h with _ h2
      exact absurd h2 (by decide)
    · cases h
    · cases h
    · injection h with _ h2
      exact (formatted_ne_offline u n 0).1 h2.symm
    · injection h with _ h2
      exact (formatted_ne_offline 0 k v).2.1 h2.symm
    · injection h with _ h2
      exact (formatted_ne_offline 0 k v).2.2.1 h2.symm
    · injection h with _ h2
      exact (formatted_ne_offline 0 n 0).2.2.2 h2.symm

/-- C14 at a concrete run: the session has been established. -/
theorem C14_last_will_witness :
    run 100 Sys.reset sessionUpRun = some ((run 100 Sys.reset sessionUpRun).getD Sys.reset) ∧
    (Option.map (fun c => c.last_will) (init_mqtt State.reset).mqtt_client =
      some { topic := "esp32/status".toList, msg := "offline".toList, msg_len := 7,
             qos := 1, retain := 1 } ∧
    ((7 : Int) = ("offline".toList.length : Int)) ∧ TOPIC_STATUS = "esp32/status".toList ∧
    (((run 100 Sys.reset sessionUpRun).getD Sys.reset).st.mqtt_client = none ∨
      ((run 100 Sys.reset sessionUpRun).getD Sys.reset).st.mqtt_client =
        (init_mqtt State.reset).mqtt_client) ∧
    ∀ c ∈ ((run 100 Sys.reset sessionUpRun).getD Sys.reset).st.calls,
      ∀ t l q r, c ≠ .publish t "offline".toList l q r) :=
  ⟨by decide, C14_last_will 100 sessionUpRun _ State.reset (by decide)⟩

/-! ## Failure of the initial connect (claim C15) -/

/-- Until app_main has returned there is no task, and as long as there is no
task every client call is a handler call. -/
theorem no_task_step (hz : Nat) (y : Sys) (l : Label) (y' : Sys)
    (hr : (y.main ≠ .returned → y.task = none) ∧
      (y.task = none → ∀ c ∈ y.st.calls, HandlerCall c))
    (h : step hz y l = some y') :
    (y'.main ≠ .returned → y'.task = none) ∧
      (y'.task = none → ∀ c ∈ y'.st.calls, HandlerCall c) := by
  obtain ⟨r1, r2⟩ := hr
  rcases step_cases hz y y' l h with ⟨id, _, rfl⟩ | ⟨id, _, rfl⟩ | ⟨t, id, ev, _, _, rfl⟩ |
    ⟨b, _, hm⟩ | ⟨inp, pc, pc', s', _, hpc, hs, rfl⟩
  · obtain ⟨_, f2, _⟩ := eth_handler_frame id y.st
    exact ⟨r1, by simpa [f2] using r2⟩
  · obtain ⟨_, f2, _⟩ := ip_handler_frame id y.st
    exact ⟨r1, by simpa [f2] using r2⟩
  · obtain ⟨cs, hc, hcs⟩ := mqtt_handler_calls_known hz t id ev y.st
    refine ⟨r1, ?_⟩
    intro hn c hmem
    simp only [hc, List.mem_append] at hmem
    rcases hmem with hmem | hmem
    · exact r2 hn c hmem
    · exact hcs c hmem
  · obtain ⟨hcalls, _, hc⟩ := app_main_cases b y y' hm
    rcases hc with hc | hc | hc | hc | hc | hc
    · have : y.task = none := r1 (by rw [hc.1]; simp)
      exact ⟨fun _ => by rw [hc.2.2.1]; exact this, fun _ => by rw [hcalls]; exact r2 this⟩
    · have : y.task = none := r1 (by rw [hc.1]; simp)
      exact ⟨fun _ => by rw [hc.2.2.2.2.1]; exact this, fun _ => by rw [hcalls]; exact r2 this⟩
    · have : y.task = none := r1 (by rw [hc.1]; simp)
      exact ⟨fun _ => by rw [hc.2.2.2.1]; exact this, fun _ => by rw [hcalls]; exact r2 this⟩
    · have : y.task = none := r1 (by rw [hc.1]; simp)
      exact ⟨fun _ => by rw [hc.2.2.1]; exact this, fun _ => by rw [hcalls]; exact r2 this⟩
    · have : y.task = none := r1 (by rw [hc.1]; simp)
      exact ⟨fun _ => by rw [hc.2.2.2.2.1]; exact this, fun _ => by rw [hcalls]; exact r2 this⟩
    · refine ⟨fun hn => absurd hc.2.2.1 hn, fun hn => ?_⟩
      rw [hc.2.2.2.1] at hn
      exact absurd hn (by simp)
  · have hret : y.main = .returned := by
      by_contra hn
      have := r1 hn
      rw [hpc] at this
      exact absurd this (by simp)
    exact ⟨fun hn => absurd hret hn, fun hn => absurd hn (by simp)⟩

/-- Once app_main has returned without creating the task, the task never
exists and every client call is a handler call. -/
theorem no_task_after_return_step (hz : Nat) (y : Sys) (l : Label) (y' : Sys)
    (hq : y.main = .returned ∧ y.task = none ∧ ∀ c ∈ y.st.calls, HandlerCall c)
    (h : step hz y l = some y') :
    y'.main = .returned ∧ y'.task = none ∧ ∀ c ∈ y'.st.calls, HandlerCall c := by
  obtain ⟨q1, q2, q3⟩ := hq
  rcases step_cases hz y y' l h with ⟨id, _, rfl⟩ | ⟨id, _, rfl⟩ | ⟨t, id, ev, _, _, rfl⟩ |
    ⟨b, _, hm⟩ | ⟨inp, pc, pc', s', _, hpc, _, _⟩
  · obtain ⟨_, f2, _⟩ := eth_handler_frame id y.st
    exact ⟨q1, q2, by simpa [f2] using q3⟩
  · obtain ⟨_, f2, _⟩ := ip_handler_frame id y.st
    exact ⟨q1, q2, by simpa [f2] using q3⟩
  · obtain ⟨cs, hc, hcs⟩ := mqtt_handler_calls_known hz t id ev y.st
    refine ⟨q1, q2, ?_⟩
    intro c hmem
    simp only [hc, List.mem_append] at hmem
    rcases hmem with hmem | hmem
    · exact q3 c hmem
    · exact hcs c hmem
  · obtain ⟨_, _, hc⟩ := app_main_cases b y y' hm
    rw [q1] at hc
    simp at hc
  · rw [q2] at hpc
    exact absurd hpc (by simp)

/-- A handler call is neither a telemetry publish nor the summary. -/
theorem handlerCall_not_task (c : ClientCall) (h : HandlerCall c) :
    (∀ d l q r, c ≠ .publish TOPIC_TEMPERATURE d l q r) ∧
    (∀ d l q r, c ≠ .publish TOPIC_HUMIDITY d l q r) ∧
    (∀ n, c ≠ .publish TOPIC_STATUS (final_msg n) 0 1 0) := by
  rcases h with h | h | h | ⟨u, n, h⟩ <;> subst h
  · refine ⟨?_, ?_, ?_⟩ <;> intros <;> intro hc <;> injection hc with h1 h2 h3 h4 h5
    · exact absurd h1 (by decide)
    · exact absurd h1 (by decide)
    · exact absurd h5 (by decide)
  · refine ⟨?_, ?_, ?_⟩ <;> intros <;> intro hc <;> cases hc
  · refine ⟨?_, ?_, ?_⟩ <;> intros <;> intro hc <;> cases hc
  · refine ⟨?_, ?_, ?_⟩ <;> intros <;> intro hc <;> injection hc with h1 h2 h3 h4 h5
    · exact absurd h1 (by decide)
    · exact absurd h1 (by decide)
    · exact absurd h4 (by decide)

/-- C15: if the wait of app_main on MQTT_CONNECTED_BIT finds the bit clear,
the wait can only end by its timeout, and then app_main logs the failure and
returns without creating sensor_publish_task.  From then on, whatever events
arrive, the task does not exist and cannot take a step, and no client call is
a telemetry publish or the summary publish. -/
theorem C15_session_timeout_fatal (hz : Nat) (ls ls' : List Label) (y y'' : Sys)
    (hrun : run hz Sys.reset ls = some y) (hmain : y.main = .wait_mqtt)
    (hbit : bitSet y.st.mqtt_event_group MQTT_CONNECTED_BIT = false)
    (hrest : run hz y (.main true :: ls') = some y'') :
    step hz y (.main false) = none ∧
    (∃ y', step hz y (.main true) = some y' ∧ y'.main = .returned ∧ y'.task = none ∧
      (⟨.E, "Failed to connect to MQTT broker within 30 seconds!"⟩ : LogEntry) ∈ y'.st.log) ∧
    y''.main = .returned ∧ y''.task = none ∧ (∀ inp, step hz y'' (.task inp) = none) ∧
    ∀ c ∈ y''.st.calls,
      (∀ d l q r, c ≠ .publish "esp32/sensors/temperature".toList d l q r) ∧
      (∀ d l q r, c ≠ .publish "esp32/sensors/humidity".toList d l q r) ∧
      (∀ n, c ≠ .publish "esp32/status".toList (final_msg n) 0 1 0) := by
  have hr := run_invariant hz
    (fun z => (z.main ≠ .returned → z.task = none) ∧
      (z.task = none → ∀ c ∈ z.st.calls, HandlerCall c))
    (fun z l z' hz' hs => no_task_step hz z l z' hz' hs) ls Sys.reset y
    ⟨fun _ => rfl, fun _ => by simp [Sys.reset, State.reset]⟩ hrun
  obtain ⟨r1, r2⟩ := hr
  have htask : y.task = none := r1 (by rw [hmain]; simp)
  simp only [run] at hrest
  split at hrest
  · exact absurd hrest (by simp)
  · rename_i y1 h1
    have hm : app_main true y = some y1 := h1
    obtain ⟨k1, _, hc⟩ := app_main_cases true y y1 hm
    rw [hmain, hbit] at hc
    simp at hc
    obtain ⟨m1, m2, _, m4⟩ := hc
    have hq := run_invariant hz
      (fun z => z.main = .returned ∧ z.task = none ∧ ∀ c ∈ z.st.calls, HandlerCall c)
      (fun z l z' hz' hs => no_task_after_return_step hz z l z' hz' hs) ls' y1 y''
      ⟨m1, by rw [m2]; exact htask, by rw [k1]; exact r2 htask⟩ hrest
    refine ⟨?_, ⟨y1, h1, m1, by rw [m2]; exact htask, m4⟩, hq.1, hq.2.1, ?_, ?_⟩
    · simp [step, app_main, hmain, hbit]
    · intro inp
      simp [step, hq.2.1]
    · intro c hmem
      exact handlerCall_not_task c (hq.2.2 c hmem)

/-- C15 at a concrete run: the client is started but the session is not
established in time; after the timeout the broker connects late. -/
theorem C15_session_timeout_fatal_witness :
    run 100 Sys.reset noSessionRun = some ((run 100 Sys.reset noSessionRun).getD Sys.reset) ∧
    ((run 100 Sys.reset noSessionRun).getD Sys.reset).main = .wait_mqtt ∧
    bitSet ((run 100 Sys.reset noSessionRun).getD Sys.reset).st.mqtt_event_group
      MQTT_CONNECTED_BIT = false ∧
    run 100 ((run 100 Sys.reset noSessionRun).getD Sys.reset)
      [.main true, .mqtt 0 .MQTT_EVENT_CONNECTED (dataEvent "" "")] =
      some ((run 100 Sys.reset (noSessionRun ++
        [.main true, .mqtt 0 .MQTT_EVENT_CONNECTED (dataEvent "" "")])).getD Sys.reset) ∧
    (step 100 ((run 100 Sys.reset noSessionRun).getD Sys.reset) (.main false) = none ∧
    (∃ y', step 100 ((run 100 Sys.reset noSessionRun).getD Sys.reset) (.main true) = some y' ∧
      y'.main = .returned ∧ y'.task = none ∧
      (⟨.E, "Failed to connect to MQTT broker within 30 seconds!"⟩ : LogEntry) ∈ y'.st.log) ∧
    ((run 100 Sys.reset (noSessionRun ++
        [.main true, .mqtt 0 .MQTT_EVENT_CONNECTED (dataEvent "" "")])).getD Sys.reset).main =
      .returned ∧
    ((run 100 Sys.reset (noSessionRun ++
        [.main true, .mqtt 0 .MQTT_EVENT_CONNECTED (dataEvent "" "")])).getD Sys.reset).task =
      none ∧
    (∀ inp, step 100 ((run 100 Sys.reset (noSessionRun ++
        [.main true, .mqtt 0 .MQTT_EVENT_CONNECTED (dataEvent "" "")])).getD Sys.reset)
      (.task inp) = none) ∧
    ∀ c ∈ ((run 100 Sys.reset (noSessionRun ++
        [.main true, .mqtt 0 .MQTT_EVENT_CONNECTED (dataEvent "" "")])).getD Sys.reset).st.calls,
      (∀ d l q r, c ≠ .publish "esp32/sensors/temperature".toList d l q r) ∧
      (∀ d l q r, c ≠ .publish "esp32/sensors/humidity".toList d l q r) ∧
      (∀ n, c ≠ .publish "esp32/status".toList (final_msg n) 0 1 0)) :=
  ⟨by decide, by decide, by decide, by decide,
    C15_session_timeout_fatal 100 noSessionRun
      [.mqtt 0 .MQTT_EVENT_CONNECTED (dataEvent "" "")] _ _
      (by decide) (by decide) (by decide) (by decide)⟩

/-! ## Order of the publishes of the task (claim C16) -/

/-- The schedule, entry by entry. -/
theorem schedule_steps :
    (∀ i, i < 10 → schedule.take (2 * i + 1) =
      schedule.take (2 * i) ++ [Kind.temperature ((i : Int) + 1)]) ∧
    (∀ i, i < 10 → schedule.take (2 * i + 2) =
      schedule.take (2 * i + 1) ++ [Kind.humidity ((i : Int) + 1)]) ∧
    schedule.take 21 = schedule.take 20 ++ [Kind.summary] := by
  decide

/-- The calls of the handler are not recognised as calls of the task. -/
theorem handlerCall_taskCall (c : ClientCall) (h : HandlerCall c) : taskCall c = false := by
  rcases h with h | h | h | ⟨u, n, h⟩ <;> subst h
  · decide
  · rfl
  · rfl
  · simp only [taskCall]
    have h1 : (TOPIC_STATUS == TOPIC_TEMPERATURE) = false := by decide
    have h2 : (TOPIC_STATUS == TOPIC_HUMIDITY) = false := by decide
    simp [h1, h2]

/-- Handler calls appended to the trace do not change the calls of the task
found in it. -/
theorem filter_handler_calls (calls cs : List ClientCall) (h : ∀ c ∈ cs, HandlerCall c) :
    (calls ++ cs).filter taskCall = calls.filter taskCall := by
  rw [List.filter_append]
  have : cs.filter taskCall = [] := by
    rw [List.filter_eq_nil_iff]
    intro c hmem
    rw [handlerCall_taskCall c (h c hmem)]
    simp
  rw [this, List.append_nil]

/-- The invariant of the publish order is kept by every move: there is no task
before app_main returns, the control point of the task holds values it can
reach, and the calls of the task found in the trace are the first entries of
the schedule, as many as the control point says. -/
theorem schedule_step (hz : Nat) (y : Sys) (l : Label) (y' : Sys)
    (hs : (y.main ≠ .returned → y.task = none) ∧ (∀ pc, y.task = some pc → pcOk pc) ∧
      List.Forall₂ renders (schedule.take (progress y.task)) (y.st.calls.filter taskCall))
    (h : step hz y l = some y') :
    (y'.main ≠ .returned → y'.task = none) ∧ (∀ pc, y'.task = some pc → pcOk pc) ∧
      List.Forall₂ renders (schedule.take (progress y'.task))
        (y'.st.calls.filter taskCall) := by
  obtain ⟨s1, s2, s3⟩ := hs
  rcases step_cases hz y y' l h with ⟨id, _, rfl⟩ | ⟨id, _, rfl⟩ | ⟨t, id, ev, _, _, rfl⟩ |
    ⟨b, _, hm⟩ | ⟨inp, pc, pc', s', _, hpc, hstep, rfl⟩
  · obtain ⟨_, f2, _⟩ := eth_handler_frame id y.st
    exact ⟨s1, s2, by simpa [f2] using s3⟩
  · obtain ⟨_, f2, _⟩ := ip_handler_frame id y.st
    exact ⟨s1, s2, by simpa [f2] using s3⟩
  · obtain ⟨cs, hc, hcs⟩ := mqtt_handler_calls_known hz t id ev y.st
    refine ⟨s1, s2, ?_⟩
    simp only [hc, filter_handler_calls _ _ hcs]
    exact s3
  · obtain ⟨hcalls, _, hc⟩ := app_main_cases b y y' hm
    rcases hc with hc | hc | hc | hc | hc | hc
    · have ht : y.task = none := s1 (by rw [hc.1]; simp)
      have ht' : y'.task = y.task := hc.2.2.1
      refine ⟨fun _ => by rw [ht']; exact ht, fun pc hp => s2 pc (by rw [← ht']; exact hp), ?_⟩
      rw [hcalls, ht']; exact s3
    · have ht : y.task = none := s1 (by rw [hc.1]; simp)
      have ht' : y'.task = y.task := hc.2.2.2.2.1
      refine ⟨fun _ => by rw [ht']; exact ht, fun pc hp => s2 pc (by rw [← ht']; exact hp), ?_⟩
      rw [hcalls, ht']; exact s3
    · have ht : y.task = none := s1 (by rw [hc.1]; simp)
      have ht' : y'.task = y.task := hc.2.2.2.1
      refine ⟨fun _ => by rw [ht']; exact ht, fun pc hp => s2 pc (by rw [← ht']; exact hp), ?_⟩
      rw [hcalls, ht']; exact s3
    · have ht : y.task = none := s1 (by rw [hc.1]; simp)
      have ht' : y'.task = y.task := hc.2.2.1
      refine ⟨fun _ => by rw [ht']; exact ht, fun pc hp => s2 pc (by rw [← ht']; exact hp), ?_⟩
      rw [hcalls, ht']; exact s3
    · have ht : y.task = none := s1 (by rw [hc.1]; simp)
      have ht' : y'.task = y.task := hc.2.2.2.2.1
      refine ⟨fun _ => by rw [ht']; exact ht, fun pc hp => s2 pc (by rw [← ht']; exact hp), ?_⟩
      rw [hcalls, ht']; exact s3
    · have ht : y.task = none := s1 (by rw [hc.1]; simp)
      have ht' : y'.task = some .wait_connected := hc.2.2.2.1
      refine ⟨fun hn => absurd hc.2.2.1 hn, ?_, ?_⟩
      · intro pc hp
        rw [ht'] at hp
        simp only [Option.some.injEq] at hp
        subst hp
        trivial
      · rw [hcalls, ht']
        rw [ht] at s3
        exact s3
  · have hret : y.main = .returned := by
      by_contra hn
      have := s1 hn
      rw [hpc] at this
      exact absurd this (by simp)
    have hok := s2 pc hpc
    rw [hpc] at s3
    obtain ⟨_, hc⟩ := task_step_cases inp pc pc' y.st s' hstep
    obtain ⟨g1, g2, g3⟩ := schedule_steps
    refine ⟨fun hn => absurd hret hn, ?_, ?_⟩
    · intro q hq
      simp only [Option.some.injEq] at hq
      subst hq
      cases pc with
      | wait_connected => rw [hc.1]; simp [pcOk]
      | loop_head i =>
        rcases hc.2.2 with ⟨hi, hp | hp⟩ | ⟨_, hp⟩ <;> rw [hp]
        · exact hi
        · exact hi
        · trivial
      | wait_reconnect i => rw [hc.1]; exact hok
      | publish_temp i =>
        rw [hc.1]
        simp only [pcOk] at hok ⊢
        unfold get_simulated_humidity
        omega
      | publish_hum i hum => rw [hc.1]; exact hok.1
      | count i =>
        rw [hc.1]
        simp only [pcOk] at hok ⊢
        omega
      | final => rw [hc.1]; trivial
      | deleted => exact absurd hc (by simp)
    · show List.Forall₂ renders (schedule.take (progress (some pc'))) (s'.calls.filter taskCall)
      cases pc with
      | wait_connected => rw [hc.1, hc.2.1]; exact s3
      | loop_head i =>
        rw [hc.1]
        rcases hc.2.2 with ⟨hi, hp | hp⟩ | ⟨hi, hp⟩ <;> rw [hp]
        · exact s3
        · exact s3
        · simp only [pcOk] at hok
          have : i = 10 := by omega
          subst this
          exact s3
      | wait_reconnect i => rw [hc.1, hc.2.1]; exact s3
      | publish_temp i =>
        simp only [pcOk] at hok
        rw [hc.1, hc.2.1, List.filter_append]
        simp only [progress]
        rw [g1 i hok]
        refine List.rel_append s3 ?_
        have : taskCall (.publish TOPIC_TEMPERATURE
            (temp_msg (get_simulated_temperature inp.r_temp) ((i : Int) + 1)) 0 1 0) = true := by
          simp [taskCall]
        simp only [List.filter_cons, this, if_true, List.filter_nil]
        exact List.Forall₂.cons ⟨_, rfl⟩ List.Forall₂.nil
      | publish_hum i hum =>
        simp only [pcOk] at hok
        rw [hc.1, hc.2.1, List.filter_append]
        simp only [progress]
        rw [g2 i hok.1]
        refine List.rel_append s3 ?_
        have : taskCall (.publish TOPIC_HUMIDITY (hum_msg hum ((i : Int) + 1)) 0 1 0) = true := by
          simp [taskCall]
        simp only [List.filter_cons, this, if_true, List.filter_nil]
        exact List.Forall₂.cons ⟨_, rfl⟩ List.Forall₂.nil
      | count i =>
        rw [hc.1, hc.2.1]
        simp only [progress] at s3 ⊢
        have : 2 * (i + 1) = 2 * i + 2 := by ring
        rw [this]
        exact s3
      | final =>
        rw [hc.1, hc.2.1, List.filter_append]
        simp only [progress] at s3 ⊢
        rw [g3]
        refine List.rel_append s3 ?_
        have : taskCall (.publish TOPIC_STATUS (final_msg y.st.publish_count) 0 1 0) = true := by
          simp [taskCall]
        simp only [List.filter_cons, this, if_true, List.filter_nil]
        exact List.Forall₂.cons ⟨_, rfl⟩ List.Forall₂.nil
      | deleted => exact absurd hc (by simp)

/-- C16: in every run of the system from reset, under every interleaving of
MQTT events (disconnects and reconnects included), link events and timeouts
with the steps of the task, the publishes of the task found in the call trace
are, in call order, the first entries of the fixed schedule temperature 1,
humidity 1, temperature 2, humidity 2, up to temperature 10, humidity 10,
then the summary; how many is given by the control point of the task.  The
schedule has no repeated entry, so no reading number is published twice for
the same metric and no cycle is retried. -/
theorem C16_publish_order (hz : Nat) (ls : List Label) (y : Sys)
    (hrun : run hz Sys.reset ls = some y) :
    List.Forall₂ renders (schedule.take (progress y.task)) (y.st.calls.filter taskCall) ∧
    schedule =
      [.temperature 1, .humidity 1, .temperature 2, .humidity 2, .temperature 3, .humidity 3,
       .temperature 4, .humidity 4, .temperature 5, .humidity 5, .temperature 6, .humidity 6,
       .temperature 7, .humidity 7, .temperature 8, .humidity 8, .temperature 9, .humidity 9,
       .temperature 10, .humidity 10, .summary] ∧
    schedule.Nodup := by
  have hs := run_invariant hz
    (fun z => (z.main ≠ .returned → z.task = none) ∧ (∀ pc, z.task = some pc → pcOk pc) ∧
      List.Forall₂ renders (schedule.take (progress z.task)) (z.st.calls.filter taskCall))
    (fun z l z' hz' hs => schedule_step hz z l z' hz' hs) ls Sys.reset y
    ⟨fun _ => rfl, fun pc hp => absurd hp (by simp [Sys.reset]),
      by simp [Sys.reset, State.reset, progress]⟩ hrun
  exact ⟨hs.2.2, by decide, by decide⟩

/-- C16 at a concrete run with a disconnect during the first cycle and a
reconnect before the second. -/
theorem C16_publish_order_witness :
    run 100 Sys.reset reconnectRun = some ((run 100 Sys.reset reconnectRun).getD Sys.reset) ∧
    (List.Forall₂ renders
      (schedule.take (progress ((run 100 Sys.reset reconnectRun).getD Sys.reset).task))
      (((run 100 Sys.reset reconnectRun).getD Sys.reset).st.calls.filter taskCall) ∧
    schedule =
      [.temperature 1, .humidity 1, .temperature 2, .humidity 2, .temperature 3, .humidity 3,
       .temperature 4, .humidity 4, .temperature 5, .humidity 5, .temperature 6, .humidity 6,
       .temperature 7, .humidity 7, .temperature 8, .humidity 8, .temperature 9, .humidity 9,
       .temperature 10, .humidity 10, .summary] ∧
    schedule.Nodup) :=
  ⟨by decide, C16_publish_order 100 reconnectRun _ (by decide)⟩

/-! ## Purity of the command dispatch (claim C17) -/

/-- C17: for every topic and payload there are a fixed list of log lines and a
fixed number n of publishes, n at most 1, such that in every state, at every
tick count and tick rate, handling the MQTT_EVENT_DATA delivery appends
exactly these log lines and exactly n client calls, each a QoS-0 non-retained
publish to esp32/status, and changes neither publish_count nor the event
groups.  The log lines name the branch taken: none (ignored), the toggle
line, the status line with the one reply, or the unknown-command line; the
toggle is written at most once and never together with a reply. -/
theorem C17_dispatch_pure (topic data : List Char) :
    ∃ (L : List LogEntry) (n : Nat),
      ((L = dataBanner ∧ n = 0) ∨ (L = dataBanner ++ [toggleEntry] ∧ n = 0) ∨
       (L = dataBanner ++ [statusEntry] ∧ n = 1) ∨ (L = dataBanner ++ [unknownEntry] ∧ n = 0)) ∧
      n ≤ 1 ∧ L.count toggleEntry + n ≤ 1 ∧
      ∀ (hz t : Nat) (s : State) (msg_id : Int) (err : Bool),
        (mqtt_event_handler hz t .MQTT_EVENT_DATA ⟨topic, data, msg_id, err⟩ s).log = s.log ++ L ∧
        (∃ cs, (mqtt_event_handler hz t .MQTT_EVENT_DATA ⟨topic, data, msg_id, err⟩ s).calls =
            s.calls ++ cs ∧ cs.length = n ∧
          ∀ c ∈ cs, ∃ d, c = .publish "esp32/status".toList d 0 0 0) ∧
        (mqtt_event_handler hz t .MQTT_EVENT_DATA ⟨topic, data, msg_id, err⟩ s).publish_count =
          s.publish_count ∧
        (mqtt_event_handler hz t .MQTT_EVENT_DATA ⟨topic, data, msg_id, err⟩ s).mqtt_event_group =
          s.mqtt_event_group ∧
        (mqtt_event_handler hz t .MQTT_EVENT_DATA ⟨topic, data, msg_id, err⟩ s).eth_event_group =
          s.eth_event_group := by
  by_cases h1 : topic.length > 0 ∧ strncmp topic TOPIC_COMMANDS topic.length = 0
  · by_cases h2 : strncmp data "toggle_led".toList data.length = 0
    · refine ⟨dataBanner ++ [toggleEntry], 0, Or.inr (Or.inl ⟨rfl, rfl⟩), by decide, by decide, ?_⟩
      intro hz t s msg_id err
      simp only [mqtt_event_handler, esp_mqtt_event_t.topic_len, esp_mqtt_event_t.data_len]
      rw [if_pos h1, if_pos h2]
      refine ⟨by simp [State.logf, dataBanner, toggleEntry], ⟨[], by simp⟩, by simp, by simp,
        by simp⟩
    · by_cases h3 : strncmp data "get_status".toList data.length = 0
      · refine ⟨dataBanner ++ [statusEntry], 1, Or.inr (Or.inr (Or.inl ⟨rfl, rfl⟩)), by decide,
          by decide, ?_⟩
        intro hz t s msg_id err
        simp only [mqtt_event_handler, esp_mqtt_event_t.topic_len, esp_mqtt_event_t.data_len]
        rw [if_pos h1, if_neg h2, if_pos h3]
        refine ⟨by simp [State.logf, State.call, dataBanner, statusEntry],
          ⟨[.publish TOPIC_STATUS (status_msg (toInt32 (t % 2 ^ 32 / hz)) s.publish_count) 0 0 0],
            by simp, rfl, ?_⟩, by simp, by simp, by simp⟩
        intro c hc
        simp only [List.mem_singleton] at hc
        exact ⟨_, hc⟩
      · refine ⟨dataBanner ++ [unknownEntry], 0, Or.inr (Or.inr (Or.inr ⟨rfl, rfl⟩)), by decide,
          by decide, ?_⟩
        intro hz t s msg_id err
        simp only [mqtt_event_handler, esp_mqtt_event_t.topic_len, esp_mqtt_event_t.data_len]
        rw [if_pos h1, if_neg h2, if_neg h3]
        refine ⟨by simp [State.logf, dataBanner, unknownEntry], ⟨[], by simp⟩, by simp, by simp,
          by simp⟩
  · refine ⟨dataBanner, 0, Or.inl ⟨rfl, rfl⟩, by decide, by decide, ?_⟩
    intro hz t s msg_id err
    simp only [mqtt_event_handler, esp_mqtt_event_t.topic_len, esp_mqtt_event_t.data_len]
    rw [if_neg h1]
    refine ⟨by simp [State.logf, dataBanner], ⟨[], by simp⟩, by simp, by simp, by simp⟩

/-! ## Transport errors (claim C18) -/

/-- C18: from every state and for every error type, handling MQTT_EVENT_ERROR
only writes log lines, the first of which reports the error: it issues no
client call and leaves the session bits (so the connected bit), publish_count,
the link bits and the client as they are. -/
theorem C18_error_event_observational (hz t : Nat) (ev : esp_mqtt_event_t) (s : State) :
    (mqtt_event_handler hz t .MQTT_EVENT_ERROR ev s).calls = s.calls ∧
    (mqtt_event_handler hz t .MQTT_EVENT_ERROR ev s).mqtt_event_group = s.mqtt_event_group ∧
    bitSet (mqtt_event_handler hz t .MQTT_EVENT_ERROR ev s).mqtt_event_group MQTT_CONNECTED_BIT =
      bitSet s.mqtt_event_group MQTT_CONNECTED_BIT ∧
    (mqtt_event_handler hz t .MQTT_EVENT_ERROR ev s).publish_count = s.publish_count ∧
    (mqtt_event_handler hz t .MQTT_EVENT_ERROR ev s).eth_event_group = s.eth_event_group ∧
    (mqtt_event_handler hz t .MQTT_EVENT_ERROR ev s).mqtt_client = s.mqtt_client ∧
    (∃ L, (mqtt_event_handler hz t .MQTT_EVENT_ERROR ev s).log =
      s.log ++ (⟨.E, "MQTT error occurred"⟩ : LogEntry) :: L) := by
  simp only [mqtt_event_handler]
  split_ifs
  · exact ⟨by simp, by simp, by simp, by simp, by simp, by simp,
      ⟨[⟨.E, "  Transport error: %s"⟩], by simp [State.logf]⟩⟩
  · exact ⟨by simp, by simp, by simp, by simp, by simp, by simp, ⟨[], by simp [State.logf]⟩⟩

/-! ## Topics delivered under the configured subscriptions (claim C19) -/

/-- A topic that begins with esp32/sensors fails the comparison with the
command topic, and is not the command topic. -/
theorem sensors_topic_no_match (topic : List Char)
    (h : topic.take 13 = "esp32/sensors".toList) :
    strncmp topic TOPIC_COMMANDS topic.length ≠ 0 ∧ topic ≠ "esp32/commands".toList := by
  match topic, h with
  | c0 :: c1 :: c2 :: c3 :: c4 :: c5 :: c6 :: rest, h =>
    simp at h
    obtain ⟨rfl, rfl, rfl, rfl, rfl, rfl, rfl, _⟩ := h
    constructor
    · have : strncmp ('e' :: 's' :: 'p' :: '3' :: '2' :: '/' :: 's' :: rest) TOPIC_COMMANDS
          (rest.length + 7) = 16 := by
        simp [strncmp, TOPIC_COMMANDS, NUL]
      simp only [List.length_cons]
      rw [this]
      decide
    · simp
  | [], h => simp at h
  | [_], h => simp at h
  | [_, _], h => simp at h
  | [_, _, _], h => simp at h
  | [_, _, _, _], h => simp at h
  | [_, _, _, _, _], h => simp at h
  | [_, _, _, _, _, _], h => simp at h

/-- C19: for a topic that can be delivered under the two configured
subscriptions, that is the command topic itself or a topic beginning with
esp32/sensors, the length-bounded comparison in mqtt_event_handler succeeds
exactly when the topic is esp32/commands.  For every such topic other than
the command topic, and every payload, state, tick count and tick rate, the
handler issues no client call and writes only the five lines that report
the message: no command action is taken. -/
theorem C19_filtered_topics_exact (topic : List Char)
    (hmatch : topic = "esp32/commands".toList ∨ topic.take 13 = "esp32/sensors".toList) :
    ((topic.length > 0 ∧ strncmp topic TOPIC_COMMANDS topic.length = 0) ↔
      topic = "esp32/commands".toList) ∧
    (topic = "esp32/commands".toList ∨
      ∀ (data : List Char) (hz t : Nat) (s : State) (msg_id : Int) (err : Bool),
        (mqtt_event_handler hz t .MQTT_EVENT_DATA ⟨topic, data, msg_id, err⟩ s).calls = s.calls ∧
        (mqtt_event_handler hz t .MQTT_EVENT_DATA ⟨topic, data, msg_id, err⟩ s).log =
          s.log ++ dataBanner ∧
        (mqtt_event_handler hz t .MQTT_EVENT_DATA ⟨topic, data, msg_id, err⟩ s).publish_count =
          s.publish_count) := by
  rcases hmatch with h | h
  · subst h
    exact ⟨⟨fun _ => rfl, fun _ => by decide⟩, Or.inl rfl⟩
  · obtain ⟨h1, h2⟩ := sensors_topic_no_match topic h
    refine ⟨⟨fun hh => absurd hh.2 h1, fun hh => absurd hh h2⟩, Or.inr ?_⟩
    intro data hz t s msg_id err
    simp only [mqtt_event_handler, esp_mqtt_event_t.topic_len]
    rw [if_neg (fun hh => h1 hh.2)]
    simp [State.logf, dataBanner]

/-- C19 at a concrete topic: a humidity message echoed under the wildcard
subscription. -/
theorem C19_filtered_topics_exact_witness :
    ("esp32/sensors/humidity".toList = "esp32/commands".toList ∨
      "esp32/sensors/humidity".toList.take 13 = "esp32/sensors".toList) ∧
    (((("esp32/sensors/humidity".toList).length > 0 ∧
        strncmp "esp32/sensors/humidity".toList TOPIC_COMMANDS
          ("esp32/sensors/humidity".toList).length = 0) ↔
      "esp32/sensors/humidity".toList = "esp32/commands".toList) ∧
    ("esp32/sensors/humidity".toList = "esp32/commands".toList ∨
      ∀ (data : List Char) (hz t : Nat) (s : State) (msg_id : Int) (err : Bool),
        (mqtt_event_handler hz t .MQTT_EVENT_DATA
          ⟨"esp32/sensors/humidity".toList, data, msg_id, err⟩ s).calls = s.calls ∧
        (mqtt_event_handler hz t .MQTT_EVENT_DATA
          ⟨"esp32/sensors/humidity".toList, data, msg_id, err⟩ s).log = s.log ++ dataBanner ∧
        (mqtt_event_handler hz t .MQTT_EVENT_DATA
          ⟨"esp32/sensors/humidity".toList, data, msg_id, err⟩ s).publish_count =
          s.publish_count)) :=
  ⟨by decide, C19_filtered_topics_exact "esp32/sensors/humidity".toList (by decide)⟩

/-! ## The connected bit (claim C20) -/

/-- The session bits after one handler invocation. -/
theorem mqtt_handler_bits (hz t : Nat) (id : esp_mqtt_event_id_t) (ev : esp_mqtt_event_t)
    (s : State) :
    (mqtt_event_handler hz t id ev s).mqtt_event_group =
      match id with
      | .MQTT_EVENT_CONNECTED => xEventGroupSetBits s.mqtt_event_group MQTT_CONNECTED_BIT
      | .MQTT_EVENT_DISCONNECTED => xEventGroupClearBits s.mqtt_event_group MQTT_CONNECTED_BIT
      | _ => s.mqtt_event_group := by
  cases id <;> simp only [mqtt_event_handler] <;> (try split_ifs) <;> simp

/-- The link handlers leave the session bits as they are. -/
theorem link_handlers_session_frame (s : State) (e : eth_event_t) (i : ip_event_t) :
    (eth_event_handler e s).mqtt_event_group = s.mqtt_event_group ∧
    (ip_event_handler i s).mqtt_event_group = s.mqtt_event_group := by
  constructor
  · cases e <;> simp [eth_event_handler]
  · cases i <;> simp [ip_event_handler]

/-- C20: after any sequence of MQTT events delivered from any state, the
connected bit is set exactly when the last MQTT_EVENT_CONNECTED or
MQTT_EVENT_DISCONNECTED event of the sequence is a CONNECTED (with no such
event the bit is as before).  The SUBSCRIBED, PUBLISHED, DATA and ERROR events
and every unrecognised event id leave the event group unchanged, and so do
the link handlers and every step of sensor_publish_task. -/
theorem C20_connected_bit_frame (hz : Nat) (es : List MqttDelivery) (s : State) (t : Nat)
    (ev : esp_mqtt_event_t) (n : Int) (inp : TaskInput) (pc : TaskPc) (e : eth_event_t)
    (i : ip_event_t) :
    bitSet (mqttRun hz s es).mqtt_event_group MQTT_CONNECTED_BIT =
      (match (es.filter isSessionEvent).getLast? with
       | some d => isConnected d
       | none => bitSet s.mqtt_event_group MQTT_CONNECTED_BIT) ∧
    (mqtt_event_handler hz t .MQTT_EVENT_SUBSCRIBED ev s).mqtt_event_group = s.mqtt_event_group ∧
    (mqtt_event_handler hz t .MQTT_EVENT_PUBLISHED ev s).mqtt_event_group = s.mqtt_event_group ∧
    (mqtt_event_handler hz t .MQTT_EVENT_DATA ev s).mqtt_event_group = s.mqtt_event_group ∧
    (mqtt_event_handler hz t .MQTT_EVENT_ERROR ev s).mqtt_event_group = s.mqtt_event_group ∧
    (mqtt_event_handler hz t (.OTHER n) ev s).mqtt_event_group = s.mqtt_event_group ∧
    (eth_event_handler e s).mqtt_event_group = s.mqtt_event_group ∧
    (ip_event_handler i s).mqtt_event_group = s.mqtt_event_group ∧
    Option.map (fun r => r.2.mqtt_event_group) (sensor_publish_task inp pc s) =
      Option.map (fun _ => s.mqtt_event_group) (sensor_publish_task inp pc s) := by
  refine ⟨?_, mqtt_handler_bits hz t _ ev s, mqtt_handler_bits hz t _ ev s,
    mqtt_handler_bits hz t _ ev s, mqtt_handler_bits hz t _ ev s,
    mqtt_handler_bits hz t _ ev s, (link_handlers_session_frame s e i).1,
    (link_handlers_session_frame s e i).2, ?_⟩
  · induction es using List.reverseRecOn with
    | nil => simp [mqttRun]
    | append_singleton es d ih =>
      rw [mqttRun_snoc, List.filter_append, mqtt_handler_bits]
      cases hid : d.event_id with
      | MQTT_EVENT_CONNECTED =>
        have h1 : isSessionEvent d = true := by simp [isSessionEvent, hid]
        have h2 : isConnected d = true := by simp [isConnected, hid]
        simp only [List.filter_cons, h1, if_true, List.filter_nil, List.getLast?_concat, h2,
          MQTT_CONNECTED_BIT]
        exact bitSet_set _
      | MQTT_EVENT_DISCONNECTED =>
        have h1 : isSessionEvent d = true := by simp [isSessionEvent, hid]
        have h2 : isConnected d = false := by simp [isConnected, hid]
        simp only [List.filter_cons, h1, if_true, List.filter_nil, List.getLast?_concat, h2,
          MQTT_CONNECTED_BIT]
        exact bitSet_clear _
      | MQTT_EVENT_ERROR =>
        have h1 : isSessionEvent d = false := by simp [isSessionEvent, hid]
        simpa [h1] using ih
      | MQTT_EVENT_SUBSCRIBED =>
        have h1 : isSessionEvent d = false := by simp [isSessionEvent, hid]
        simpa [h1] using ih
      | MQTT_EVENT_PUBLISHED =>
        have h1 : isSessionEvent d = false := by simp [isSessionEvent, hid]
        simpa [h1] using ih
      | MQTT_EVENT_DATA =>
        have h1 : isSessionEvent d = false := by simp [isSessionEvent, hid]
        simpa [h1] using ih
      | OTHER k =>
        have h1 : isSessionEvent d = false := by simp [isSessionEvent, hid]
        simpa [h1] using ih
  · cases hstep : sensor_publish_task inp pc s with
    | none => rfl
    | some r =>
      obtain ⟨pc', s'⟩ := r
      have := (task_step_cases inp pc pc' s s' hstep).1
      simp [this]

/-! ## The publish counter (claim C21) -/

/-- At a control point the task can reach, at most 10 cycles are complete. -/
theorem cyclesDone_le (pc : TaskPc) (h : pcOk pc) : cyclesDone (some pc) ≤ 10 := by
  cases pc <;> simp only [pcOk] at h <;> simp only [cyclesDone] <;> omega

/-- The handlers leave publish_count as it is. -/
theorem handlers_count_frame (hz t : Nat) (id : esp_mqtt_event_id_t) (ev : esp_mqtt_event_t)
    (e : eth_event_t) (i : ip_event_t) (s : State) :
    (mqtt_event_handler hz t id ev s).publish_count = s.publish_count ∧
    (eth_event_handler e s).publish_count = s.publish_count ∧
    (ip_event_handler i s).publish_count = s.publish_count := by
  refine ⟨?_, ?_, ?_⟩
  · cases id <;> simp only [mqtt_event_handler] <;> (try split_ifs) <;> simp
  · cases e <;> simp [eth_event_handler]
  · cases i <;> simp [ip_event_handler]

/-- The invariant of the publish counter is kept by every move: there is no
task before app_main returns, the control point of the task holds values it
can reach, publish_count is twice the number of completed cycles, and every
client call reports a count that fits. -/
theorem count_step (hz : Nat) (y : Sys) (l : Label) (y' : Sys)
    (hj : (y.main ≠ .returned → y.task = none) ∧ (∀ pc, y.task = some pc → pcOk pc) ∧
      y.st.publish_count = 2 * (cyclesDone y.task : Int) ∧ ∀ c ∈ y.st.calls, CountedCall c)
    (h : step hz y l = some y') :
    ((y'.main ≠ .returned → y'.task = none) ∧ (∀ pc, y'.task = some pc → pcOk pc) ∧
      y'.st.publish_count = 2 * (cyclesDone y'.task : Int) ∧
      ∀ c ∈ y'.st.calls, CountedCall c) ∧
    (y'.st.publish_count = y.st.publish_count ∨
      (y'.st.publish_count = y.st.publish_count + 2 ∧
        ∃ inp i, l = .task inp ∧ y.task = some (.count i))) := by
  obtain ⟨j1, j2, j3, j4⟩ := hj
  have hk : cyclesDone y.task ≤ 10 := by
    cases ht : y.task with
    | none => simp [cyclesDone]
    | some pc => exact cyclesDone_le pc (j2 pc ht)
  rcases step_cases hz y y' l h with ⟨id, _, rfl⟩ | ⟨id, _, rfl⟩ | ⟨t, id, ev, _, _, rfl⟩ |
    ⟨b, _, hm⟩ | ⟨inp, pc, pc', s', hl, hpc, hstep, rfl⟩
  · obtain ⟨_, f2, _⟩ := eth_handler_frame id y.st
    have f3 := (handlers_count_frame hz 0 .MQTT_EVENT_ERROR (dataEvent "" "") id
      .IP_EVENT_ETH_GOT_IP y.st).2.1
    exact ⟨⟨j1, j2, by simpa [f3] using j3, by simpa [f2] using j4⟩, Or.inl f3⟩
  · obtain ⟨_, f2, _⟩ := ip_handler_frame id y.st
    have f3 := (handlers_count_frame hz 0 .MQTT_EVENT_ERROR (dataEvent "" "")
      .ETHERNET_EVENT_START id y.st).2.2
    exact ⟨⟨j1, j2, by simpa [f3] using j3, by simpa [f2] using j4⟩, Or.inl f3⟩
  · have f3 := (handlers_count_frame hz t id ev .ETHERNET_EVENT_START
      .IP_EVENT_ETH_GOT_IP y.st).1
    refine ⟨⟨j1, j2, by simpa [f3] using j3, ?_⟩, Or.inl f3⟩
    intro c hmem
    rcases mqtt_handler_calls hz t id ev y.st with ⟨_, hc⟩ | ⟨_, hc | ⟨u, hc⟩⟩
    · simp only [hc, List.mem_append] at hmem
      rcases hmem with hmem | hmem
      · exact j4 c hmem
      · simp only [connectCalls, List.mem_cons, List.mem_singleton, List.mem_nil_iff,
          or_false] at hmem
        rcases hmem with h' | h' | h'
        · exact Or.inl h'
        · exact Or.inr (Or.inl h')
        · exact Or.inr (Or.inr (Or.inl h'))
    · simp only [hc] at hmem
      exact j4 c hmem
    · simp only [hc, List.mem_append, List.mem_singleton] at hmem
      rcases hmem with hmem | hmem
      · exact j4 c hmem
      · refine Or.inr (Or.inr (Or.inr (Or.inl ⟨u, cyclesDone y.task, hk, ?_⟩)))
        rw [hmem, j3]
  · obtain ⟨hcalls, hcount, hc⟩ := app_main_cases b y y' hm
    refine ⟨?_, Or.inl hcount⟩
    rcases hc with hc | hc | hc | hc | hc | hc
    · have ht : y.task = none := j1 (by rw [hc.1]; simp)
      have ht' : y'.task = y.task := hc.2.2.1
      exact ⟨fun _ => by rw [ht']; exact ht, fun pc hp => j2 pc (by rw [← ht']; exact hp),
        by rw [hcount, ht']; exact j3, by rw [hcalls]; exact j4⟩
    · have ht : y.task = none := j1 (by rw [hc.1]; simp)
      have ht' : y'.task = y.task := hc.2.2.2.2.1
      exact ⟨fun _ => by rw [ht']; exact ht, fun pc hp => j2 pc (by rw [← ht']; exact hp),
        by rw [hcount, ht']; exact j3, by rw [hcalls]; exact j4⟩
    · have ht : y.task = none := j1 (by rw [hc.1]; simp)
      have ht' : y'.task = y.task := hc.2.2.2.1
      exact ⟨fun _ => by rw [ht']; exact ht, fun pc hp => j2 pc (by rw [← ht']; exact hp),
        by rw [hcount, ht']; exact j3, by rw [hcalls]; exact j4⟩
    · have ht : y.task = none := j1 (by rw [hc.1]; simp)
      have ht' : y'.task = y.task := hc.2.2.1
      exact ⟨fun _ => by rw [ht']; exact ht, fun pc hp => j2 pc (by rw [← ht']; exact hp),
        by rw [hcount, ht']; exact j3, by rw [hcalls]; exact j4⟩
    · have ht : y.task = none := j1 (by rw [hc.1]; simp)
      have ht' : y'.task = y.task := hc.2.2.2.2.1
      exact ⟨fun _ => by rw [ht']; exact ht, fun pc hp => j2 pc (by rw [← ht']; exact hp),
        by rw [hcount, ht']; exact j3, by rw [hcalls]; exact j4⟩
    · have ht : y.task = none := j1 (by rw [hc.1]; simp)
      have ht' : y'.task = some .wait_connected := hc.2.2.2.1
      refine ⟨fun hn => absurd hc.2.2.1 hn, ?_, ?_, by rw [hcalls]; exact j4⟩
      · intro pc hp
        rw [ht'] at hp
        simp only [Option.some.injEq] at hp
        subst hp
        trivial
      · rw [hcount, ht', j3, ht]
        rfl
  · have hret : y.main = .returned := by
      by_contra hn
      have := j1 hn
      rw [hpc] at this
      exact absurd this (by simp)
    have hok := j2 pc hpc
    rw [hpc] at j3
    obtain ⟨_, hc⟩ := task_step_cases inp pc pc' y.st s' hstep
    cases pc with
    | wait_connected =>
      obtain ⟨rfl, c1, c2⟩ := hc
      refine ⟨⟨fun hn => absurd hret hn, ?_, ?_, by rw [c1]; exact j4⟩, Or.inl c2⟩
      · intro q hq; simp only [Option.some.injEq] at hq; subst hq; simp [pcOk]
      · show s'.publish_count = _
        rw [c2, j3]; rfl
    | loop_head i =>
      obtain ⟨c1, c2, c3⟩ := hc
      simp only [pcOk] at hok
      refine ⟨⟨fun hn => absurd hret hn, ?_, ?_, by rw [c1]; exact j4⟩, Or.inl c2⟩
      · intro q hq
        simp only [Option.some.injEq] at hq
        subst hq
        rcases c3 with ⟨hi, hp | hp⟩ | ⟨_, hp⟩ <;> rw [hp]
        · exact hi
        · exact hi
        · trivial
      · show s'.publish_count = _
        rw [c2, j3]
        rcases c3 with ⟨hi, hp | hp⟩ | ⟨hi, hp⟩ <;> rw [hp]
        · rfl
        · rfl
        · have : i = 10 := by omega
          subst this
          rfl
    | wait_reconnect i =>
      obtain ⟨rfl, c1, c2⟩ := hc
      refine ⟨⟨fun hn => absurd hret hn, ?_, ?_, by rw [c1]; exact j4⟩, Or.inl c2⟩
      · intro q hq; simp only [Option.some.injEq] at hq; subst hq; exact hok
      · show s'.publish_count = _
        rw [c2, j3]; rfl
    | publish_temp i =>
      obtain ⟨rfl, c1, c2⟩ := hc
      simp only [pcOk] at hok
      refine ⟨⟨fun hn => absurd hret hn, ?_, ?_, ?_⟩, Or.inl c2⟩
      · intro q hq
        simp only [Option.some.injEq] at hq
        subst hq
        simp only [pcOk]
        unfold get_simulated_humidity
        omega
      · show s'.publish_count = _
        rw [c2, j3]; rfl
      · intro c hmem
        simp only [c1, List.mem_append, List.mem_singleton] at hmem
        rcases hmem with hmem | hmem
        · exact j4 c hmem
        · exact Or.inr (Or.inr (Or.inr (Or.inr (Or.inl ⟨_, hmem⟩))))
    | publish_hum i hum =>
      obtain ⟨rfl, c1, c2⟩ := hc
      refine ⟨⟨fun hn => absurd hret hn, ?_, ?_, ?_⟩, Or.inl c2⟩
      · intro q hq; simp only [Option.some.injEq] at hq; subst hq; exact hok.1
      · show s'.publish_count = _
        rw [c2, j3]; rfl
      · intro c hmem
        simp only [c1, List.mem_append, List.mem_singleton] at hmem
        rcases hmem with hmem | hmem
        · exact j4 c hmem
        · exact Or.inr (Or.inr (Or.inr (Or.inr (Or.inr (Or.inl ⟨_, hmem⟩)))))
    | count i =>
      obtain ⟨rfl, c1, c2⟩ := hc
      simp only [pcOk] at hok
      refine ⟨⟨fun hn => absurd hret hn, ?_, ?_, by rw [c1]; exact j4⟩,
        Or.inr ⟨c2, inp, i, hl, hpc⟩⟩
      · intro q hq
        simp only [Option.some.injEq] at hq
        subst hq
        simp only [pcOk]
        omega
      · show s'.publish_count = _
        rw [c2, j3]
        simp only [cyclesDone]
        push_cast
        ring
    | final =>
      obtain ⟨rfl, c1, c2⟩ := hc
      refine ⟨⟨fun hn => absurd hret hn, ?_, ?_, ?_⟩, Or.inl c2⟩
      · intro q hq; simp only [Option.some.injEq] at hq; subst hq; trivial
      · show s'.publish_count = _
        rw [c2, j3]; rfl
      · intro c hmem
        simp only [c1, List.mem_append, List.mem_singleton] at hmem
        rcases hmem with hmem | hmem
        · exact j4 c hmem
        · refine Or.inr (Or.inr (Or.inr (Or.inr (Or.inr (Or.inr ?_)))))
          rw [hmem, j3]
          have : final_msg (2 * ((cyclesDone (some TaskPc.final) : Nat) : Int)) =
              "\x7b\"status\":\"complete\",\"total_published\":20\x7d".toList := by decide
          rw [this]
    | deleted => exact absurd hc (by simp)

/-- C21: in every run of the system from reset, publish_count is twice the
number of cycles the task has completed, which is at most 10, so it is even
and lies between 0 and 20.  Every move leaves it unchanged or adds 2, and the
moves that add 2 are the counting step of the task at the end of a cycle; that
step adds 2 in every state, whatever the publishes of the cycle returned.
Every status reply in the call trace reports a count 2 k with k at most 10,
and the summary reports total_published 20. -/
theorem C21_publish_count (hz : Nat) (ls : List Label) (y : Sys)
    (hrun : run hz Sys.reset ls = some y) :
    y.st.publish_count = 2 * (cyclesDone y.task : Int) ∧ cyclesDone y.task ≤ 10 ∧
    (∀ l, match step hz y l with
      | none => True
      | some y' => y'.st.publish_count = y.st.publish_count ∨
          (y'.st.publish_count = y.st.publish_count + 2 ∧
            ∃ inp i, l = .task inp ∧ y.task = some (.count i))) ∧
    (∀ c ∈ y.st.calls, CountedCall c) ∧
    (∀ (inp : TaskInput) (i : Nat) (s : State),
      sensor_publish_task inp (.count i) s =
        some (.loop_head (i + 1), { s with publish_count := s.publish_count + 2 })) := by
  have hj := run_invariant hz
    (fun z => (z.main ≠ .returned → z.task = none) ∧ (∀ pc, z.task = some pc → pcOk pc) ∧
      z.st.publish_count = 2 * (cyclesDone z.task : Int) ∧ ∀ c ∈ z.st.calls, CountedCall c)
    (fun z l z' hz' hs => (count_step hz z l z' hz' hs).1) ls Sys.reset y
    ⟨fun _ => rfl, fun pc hp => absurd hp (by simp [Sys.reset]),
      by simp [Sys.reset, State.reset, cyclesDone], by simp [Sys.reset, State.reset]⟩ hrun
  refine ⟨hj.2.2.1, ?_, ?_, hj.2.2.2, fun _ _ _ => rfl⟩
  · cases ht : y.task with
    | none => simp [cyclesDone]
    | some pc => exact cyclesDone_le pc (hj.2.1 pc ht)
  · intro l
    cases hs : step hz y l with
    | none => trivial
    | some y' => exact (count_step hz y l y' hj hs).2

/-- C21 at a concrete run, in which one cycle has been completed. -/
theorem C21_publish_count_witness :
    run 100 Sys.reset reconnectRun = some ((run 100 Sys.reset reconnectRun).getD Sys.reset) ∧
    (((run 100 Sys.reset reconnectRun).getD Sys.reset).st.publish_count =
      2 * (cyclesDone ((run 100 Sys.reset reconnectRun).getD Sys.reset).task : Int) ∧
    cyclesDone ((run 100 Sys.reset reconnectRun).getD Sys.reset).task ≤ 10 ∧
    (∀ l, match step 100 ((run 100 Sys.reset reconnectRun).getD Sys.reset) l with
      | none => True
      | some y' => y'.st.publish_count =
            ((run 100 Sys.reset reconnectRun).getD Sys.reset).st.publish_count ∨
          (y'.st.publish_count =
              ((run 100 Sys.reset reconnectRun).getD Sys.reset).st.publish_count + 2 ∧
            ∃ inp i, l = .task inp ∧
              ((run 100 Sys.reset reconnectRun).getD Sys.reset).task = some (.count i))) ∧
    (∀ c ∈ ((run 100 Sys.reset reconnectRun).getD Sys.reset).st.calls, CountedCall c) ∧
    (∀ (inp : TaskInput) (i : Nat) (s : State),
      sensor_publish_task inp (.count i) s =
        some (.loop_head (i + 1), { s with publish_count := s.publish_count + 2 }))) :=
  ⟨by decide, C21_publish_count 100 reconnectRun _ (by decide)⟩

/-! ## Buffer sizes (claim C22) -/

/-- The summary fits its 128-byte buffer. -/
theorem final_msg_eq (n : Int) (hn : -2 ^ 31 ≤ n ∧ n < 2 ^ 31) :
    final_msg n = "\x7b\"status\":\"complete\",\"total_published\":".toList ++ fmt_d n ++
      "\x7d".toList := by
  have h2 := fmt_d_length_le n hn.1 hn.2
  unfold final_msg snprintf
  rw [List.take_of_length_le]
  simp
  omega

/-- C22: none of the four messages is cut by its 128-byte buffer.  For ints
uptime and publish_count the status reply, for an int publish_count the
summary, and for a reading number from 1 to 10 and every value of
esp_random() the temperature and the humidity record each have fewer than
128 characters as formatted, and snprintf stores them whole. -/
theorem C22_no_truncation (u c n k : Int) (r1 r2 : Nat)
    (hu : -2 ^ 31 ≤ u ∧ u < 2 ^ 31) (hc : -2 ^ 31 ≤ c ∧ c < 2 ^ 31)
    (hn : -2 ^ 31 ≤ n ∧ n < 2 ^ 31) (hk : 1 ≤ k ∧ k ≤ 10) :
    (("\x7b\"uptime_s\":".toList ++ fmt_d u ++ ",\"publish_count\":".toList ++ fmt_d c ++
        "\x7d".toList).length < 128 ∧
      status_msg u c = "\x7b\"uptime_s\":".toList ++ fmt_d u ++ ",\"publish_count\":".toList ++
        fmt_d c ++ "\x7d".toList) ∧
    (("\x7b\"status\":\"complete\",\"total_published\":".toList ++ fmt_d n ++
        "\x7d".toList).length < 128 ∧
      final_msg n = "\x7b\"status\":\"complete\",\"total_published\":".toList ++ fmt_d n ++
        "\x7d".toList) ∧
    (("\x7b\"device\":\"esp32-qemu-01\",\"value\":".toList ++
        fmt_1f (get_simulated_temperature r1) ++ ",\"unit\":\"C\",\"reading\":".toList ++
        fmt_d k ++ "\x7d".toList).length < 128 ∧
      temp_msg (get_simulated_temperature r1) k =
        "\x7b\"device\":\"esp32-qemu-01\",\"value\":".toList ++
        fmt_1f (get_simulated_temperature r1) ++ ",\"unit\":\"C\",\"reading\":".toList ++
        fmt_d k ++ "\x7d".toList) ∧
    (("\x7b\"device\":\"esp32-qemu-01\",\"value\":".toList ++
        fmt_1f (get_simulated_humidity r2) ++ ",\"unit\":\"%\",\"reading\":".toList ++
        fmt_d k ++ "\x7d".toList).length < 128 ∧
      hum_msg (get_simulated_humidity r2) k =
        "\x7b\"device\":\"esp32-qemu-01\",\"value\":".toList ++
        fmt_1f (get_simulated_humidity r2) ++ ",\"unit\":\"%\",\"reading\":".toList ++
        fmt_d k ++ "\x7d".toList) := by
  have l1 := fmt_d_length_le u hu.1 hu.2
  have l2 := fmt_d_length_le c hc.1 hc.2
  have l3 := fmt_d_length_le n hn.1 hn.2
  have l4 := fmt_d_length_le k (by omega) (by omega)
  have ht : get_simulated_temperature r1 < 10 ^ 10 := by
    unfold get_simulated_temperature; omega
  have hh : get_simulated_humidity r2 < 10 ^ 10 := by
    unfold get_simulated_humidity; omega
  have l5 := fmt_1f_length_le _ ht
  have l6 := fmt_1f_length_le _ hh
  refine ⟨⟨?_, status_msg_eq u c hu hc⟩, ⟨?_, final_msg_eq n hn⟩,
    ⟨?_, temp_msg_eq _ k ht (by omega)⟩, ⟨?_, hum_msg_eq _ k hh (by omega)⟩⟩
  · simp; omega
  · simp; omega
  · simp; omega
  · simp; omega

/-- C22 at concrete values: the largest uptime and count, reading 10. -/
theorem C22_no_truncation_witness :
    (-2 ^ 31 ≤ (2147483647 : Int) ∧ (2147483647 : Int) < 2 ^ 31) ∧
    (-2 ^ 31 ≤ (-2147483648 : Int) ∧ (-2147483648 : Int) < 2 ^ 31) ∧
    (-2 ^ 31 ≤ (20 : Int) ∧ (20 : Int) < 2 ^ 31) ∧ ((1 : Int) ≤ 10 ∧ (10 : Int) ≤ 10) ∧
    ((("\x7b\"uptime_s\":".toList ++ fmt_d 2147483647 ++ ",\"publish_count\":".toList ++
        fmt_d (-2147483648) ++ "\x7d".toList).length < 128 ∧
      status_msg 2147483647 (-2147483648) = "\x7b\"uptime_s\":".toList ++ fmt_d 2147483647 ++
        ",\"publish_count\":".toList ++ fmt_d (-2147483648) ++ "\x7d".toList) ∧
    (("\x7b\"status\":\"complete\",\"total_published\":".toList ++ fmt_d 20 ++
        "\x7d".toList).length < 128 ∧
      final_msg 20 = "\x7b\"status\":\"complete\",\"total_published\":".toList ++ fmt_d 20 ++
        "\x7d".toList) ∧
    (("\x7b\"device\":\"esp32-qemu-01\",\"value\":".toList ++
        fmt_1f (get_simulated_temperature 99) ++ ",\"unit\":\"C\",\"reading\":".toList ++
        fmt_d 10 ++ "\x7d".toList).length < 128 ∧
      temp_msg (get_simulated_temperature 99) 10 =
        "\x7b\"device\":\"esp32-qemu-01\",\"value\":".toList ++
        fmt_1f (get_simulated_temperature 99) ++ ",\"unit\":\"C\",\"reading\":".toList ++
        fmt_d 10 ++ "\x7d".toList) ∧
    (("\x7b\"device\":\"esp32-qemu-01\",\"value\":".toList ++
        fmt_1f (get_simulated_humidity 299) ++ ",\"unit\":\"%\",\"reading\":".toList ++
        fmt_d 10 ++ "\x7d".toList).length < 128 ∧
      hum_msg (get_simulated_humidity 299) 10 =
        "\x7b\"device\":\"esp32-qemu-01\",\"value\":".toList ++
        fmt_1f (get_simulated_humidity 299) ++ ",\"unit\":\"%\",\"reading\":".toList ++
        fmt_d 10 ++ "\x7d".toList)) :=
  ⟨by decide, by decide, by decide, by decide,
    C22_no_truncation 2147483647 (-2147483648) 20 10 99 299
      (by decide) (by decide) (by decide) (by decide)⟩

/-! ## Topics the dispatcher ignores (claim C2, amended) -/

end Mqtt04

namespace LowPower

/-! ## The simulated ADC value (claim C24) -/

/-- Within the int range the reduction changes nothing. -/
theorem wrapInt32_of_range (x : Int) (hlo : -2 ^ 31 ≤ x) (hhi : x < 2 ^ 31) :
    wrapInt32 x = x := by
  unfold wrapInt32
  omega

/-- C24: for every reading_count that is not negative and for which
reading_count * 17 + 42 stays within int, read_sensor returns
(reading_count * 17 + 42) mod 4096, a value from 0 to 4095. -/
theorem C24_read_sensor_range (reading_count : Int) (h0 : 0 ≤ reading_count)
    (hov : reading_count * 17 + 42 < 2 ^ 31) :
    read_sensor reading_count = (reading_count * 17 + 42) % 4096 ∧
    0 ≤ read_sensor reading_count ∧ read_sensor reading_count ≤ 4095 := by
  have h1 : wrapInt32 (reading_count * 17) = reading_count * 17 :=
    wrapInt32_of_range _ (by omega) (by omega)
  have h2 : wrapInt32 (reading_count * 17 + 42) = reading_count * 17 + 42 :=
    wrapInt32_of_range _ (by omega) hov
  have h3 : read_sensor reading_count = (reading_count * 17 + 42) % 4096 := by
    unfold read_sensor
    rw [h1, h2]
    exact Int.tmod_eq_emod (by omega) (by decide)
  rw [h3]
  omega

/-- C24 at a concrete value: reading 241 gives 4139 mod 4096 = 43. -/
theorem C24_read_sensor_range_witness :
    (0 : Int) ≤ 241 ∧ (241 : Int) * 17 + 42 < 2 ^ 31 ∧
    (read_sensor 241 = (241 * 17 + 42) % 4096 ∧ 0 ≤ read_sensor 241 ∧
      read_sensor 241 ≤ 4095) :=
  ⟨by decide, by decide, C24_read_sensor_range 241 (by decide) (by decide)⟩

end LowPower
